import Mathlib

/-!
Shallow embedding of `midi_recorder.py` (ChrisBeaumont/midi_recorder).

Timestamps (`time.perf_counter()` / `time.time()` values) are modelled as
rationals; the float arithmetic of `write_message` is modelled by exact
rational arithmetic with Python `int()` truncation (`pyInt`).  The mutable
`MidiRecorder` object becomes an explicit `State` record threaded through
the translated methods; the `mido` track becomes a list of `TrackEntry`,
and a saved `.mid` file becomes a `(suffix, track)` pair appended to
`saved_files`.  The two near-identical reserved-note dictionaries
(`low_note_state` / `high_note_state`) are indexed by `Side`, mirroring the
for-loop over `[(LOW_BLACK_NOTE, ..., ''), (HIGH_BLACK_NOTE, ..., '-bookmark')]`
in `handle_shortcuts`.
-/

namespace MidiRecorder

/-- Configuration constants from the top of `midi_recorder.py`. -/
def SESSION_TIMEOUT : ℚ := 5

def DEFAULT_TEMPO : ℕ := 500000

def TICKS_PER_BEAT : ℕ := 480

def LOW_BLACK_NOTE : ℕ := 22

def HIGH_BLACK_NOTE : ℕ := 106

def SHORTCUT_TIMEOUT : ℚ := 1

/-- The message kinds (`msg.type`) distinguished by the recorder. -/
inductive MsgKind
  | note_on
  | note_off
  | control_change
  | clock
  | active_sensing
  | other
deriving DecidableEq

/-- A mido message, restricted to the fields the recorder reads. -/
structure Msg where
  kind : MsgKind
  note : ℕ
  velocity : ℕ
deriving DecidableEq

/-- What a track slot holds: the seed tempo meta message or a copied MIDI
message. -/
inductive TrackPayload
  | set_tempo
  | midi (m : Msg)
deriving DecidableEq

/-- One entry of `current_track`: a payload together with its `time`
attribute (the tick delta assigned by `write_message`; 0 for the seed). -/
structure TrackEntry where
  payload : TrackPayload
  time : ℤ
deriving DecidableEq

/-- One reserved-note shortcut dictionary
`{'count': 0, 'buffer': [], 'last_time': 0}`. -/
structure NoteState where
  count : ℕ
  buffer : List (Msg × ℚ)
  last_time : ℚ
deriving DecidableEq

/-- The mutable attributes of the `MidiRecorder` object.  `current_file`
and `current_track` are always both `None` or both set in the source, so a
single option field models them; saving a file is modelled by appending
`(suffix, track)` to `saved_files`. -/
structure State where
  recording : Bool
  last_activity : Option ℚ
  session_start_time : Option ℚ
  first_message_time : Option ℚ
  last_message_time : Option ℚ
  in_low_power : Bool
  message_queue : List (Msg × ℚ)
  current_track : Option (List TrackEntry)
  low_note_state : NoteState
  high_note_state : NoteState
  saved_files : List (String × List TrackEntry)
deriving DecidableEq

/-- The freshly constructed recorder (`MidiRecorder.__init__`). -/
def initState : State where
  recording := false
  last_activity := none
  session_start_time := none
  first_message_time := none
  last_message_time := none
  in_low_power := false
  message_queue := []
  current_track := none
  low_note_state := ⟨0, [], 0⟩
  high_note_state := ⟨0, [], 0⟩
  saved_files := []

/-- Index of the two reserved-note state machines. -/
inductive Side
  | low
  | high
deriving DecidableEq

/-- The watched note value of a side. -/
def Side.note : Side → ℕ
  | .low => LOW_BLACK_NOTE
  | .high => HIGH_BLACK_NOTE

/-- The filename suffix a side's triggered gesture passes to
`stop_recording`. -/
def Side.sfx : Side → String
  | .low => ""
  | .high => "-bookmark"

/-- The opposite side. -/
def Side.other : Side → Side
  | .low => .high
  | .high => .low

/-- The shortcut dictionary of a side. -/
def State.noteState (s : State) : Side → NoteState
  | .low => s.low_note_state
  | .high => s.high_note_state

/-- Replace the shortcut dictionary of a side. -/
def State.setNoteState (s : State) : Side → NoteState → State
  | .low, ns => { s with low_note_state := ns }
  | .high, ns => { s with high_note_state := ns }

/-- Python `int()` applied to a rational: truncation toward zero. -/
def pyInt (q : ℚ) : ℤ :=
  if q < 0 then ⌈q⌉ else ⌊q⌋

/-- The tick computation of `write_message`: `delta_seconds` is 0 when
`last_message_time` is `None`, `beats_per_second = 1000000.0 / DEFAULT_TEMPO`,
`delta_ticks = max(0, int(delta_seconds * TICKS_PER_BEAT * beats_per_second))`. -/
def tickDelta (prev : Option ℚ) (cur : ℚ) : ℤ :=
  let delta_seconds : ℚ :=
    match prev with
    | none => 0
    | some p => cur - p
  let beats_per_second : ℚ := 1000000 / (DEFAULT_TEMPO : ℚ)
  max 0 (pyInt (delta_seconds * (TICKS_PER_BEAT : ℚ) * beats_per_second))

/-- `write_message`: append a copy of the message with its tick delta to
the current track (no-op when `current_track is None`) and advance
`last_message_time`. -/
def write_message (s : State) (m : Msg) (ts : ℚ) : State :=
  match s.current_track with
  | none => s
  | some tr =>
    { s with
      current_track := some (tr ++ [⟨TrackPayload.midi m, tickDelta s.last_message_time ts⟩])
      last_message_time := some ts }

/-- `flush_buffer`: write every buffered `(msg, ts)` of a side in order,
then reset that side's dictionary to `{'count': 0, 'buffer': [], 'last_time': 0}`. -/
def flush_buffer (s : State) (side : Side) : State :=
  let s1 := (s.noteState side).buffer.foldl (fun acc p => write_message acc p.1 p.2) s
  s1.setNoteState side ⟨0, [], 0⟩

/-- `flush_shortcut_buffers`: flush the low side, then the high side. -/
def flush_shortcut_buffers (s : State) : State :=
  flush_buffer (flush_buffer s .low) .high

/-- `start_recording`: begin a new session with a fresh track seeded by the
`set_tempo` meta message. -/
def start_recording (s : State) (now : ℚ) : State :=
  if s.recording then s
  else
    { s with
      session_start_time := some now
      last_activity := some now
      first_message_time := none
      last_message_time := none
      current_track := some [⟨TrackPayload.set_tempo, 0⟩]
      recording := true
      in_low_power := false }

/-- Tail of `stop_recording` after queue and buffer handling: save the
track when it holds more than the tempo seed, then drop
`current_file`/`current_track`. -/
def stop_recording_save (suffix : String) (s : State) : State :=
  match s.current_track with
  | some tr =>
    if 1 < tr.length then
      { s with saved_files := s.saved_files ++ [(suffix, tr)], current_track := none }
    else
      { s with current_track := none }
  | none => { s with current_track := none }

/-- Buffer handling of `stop_recording`: with `skip_buffer` both shortcut
dictionaries are reset without being written; otherwise they are flushed
into the track.  Then the save step runs. -/
def stop_recording_core (suffix : String) (skip_buffer : Bool) (s : State) : State :=
  let s1 :=
    if skip_buffer then
      { s with low_note_state := ⟨0, [], 0⟩, high_note_state := ⟨0, [], 0⟩ }
    else
      flush_shortcut_buffers s
  stop_recording_save suffix s1

/-- `stop_recording(suffix, skip_queue=True, skip_buffer=True)` — the call
made on the third tap of a gesture: guard on `recording`, clear the
queue instead of draining it, discard both buffers, save. -/
def stop_recording_skip (suffix : String) (s : State) : State :=
  if s.recording then
    stop_recording_core suffix true { s with recording := false, message_queue := [] }
  else s

/-- Body of the `for note, state, suffix in [...]` loop of
`handle_shortcuts` for the side whose note matches `msg.note`. -/
def handle_watched (side : Side) (s : State) (m : Msg) (ts : ℚ) : State × Bool :=
  let s1 :=
    if m.kind = .note_on ∧ 0 < (s.noteState side).count ∧
        SHORTCUT_TIMEOUT < ts - (s.noteState side).last_time then
      flush_buffer s side
    else s
  let st := s1.noteState side
  let s2 := s1.setNoteState side { st with buffer := st.buffer ++ [(m, ts)] }
  if m.kind = .note_on then
    let st2 := s2.noteState side
    let s3 := s2.setNoteState side { st2 with count := st2.count + 1, last_time := ts }
    if 3 ≤ (s3.noteState side).count then
      (stop_recording_skip side.sfx { s3 with message_queue := [] }, true)
    else (s3, true)
  else (s2, true)

/-- The fallthrough of `handle_shortcuts`: flush each side whose `count`
is positive (low first). -/
def flush_pending (s : State) : State :=
  let s1 := if 0 < s.low_note_state.count then flush_buffer s .low else s
  if 0 < s1.high_note_state.count then flush_buffer s1 .high else s1

/-- `handle_shortcuts`: dispatch note on/off events on a reserved note to
that side's machine; for any other event flush the pending sides and
report not-handled. -/
def handle_shortcuts (s : State) (m : Msg) (ts : ℚ) : State × Bool :=
  if m.kind = .note_on ∨ m.kind = .note_off then
    if m.note = LOW_BLACK_NOTE then handle_watched .low s m ts
    else if m.note = HIGH_BLACK_NOTE then handle_watched .high s m ts
    else (flush_pending s, false)
  else (flush_pending s, false)

/-- The `if not self.recording: self.start_recording(); self.first_message_time = msg_timestamp`
step of `process_midi_message`. -/
def ensure_recording (s : State) (ts : ℚ) : State :=
  if s.recording then s
  else { start_recording s ts with first_message_time := some ts }

/-- `exit_low_power_mode` (the governor side effect is external). -/
def exit_low_power_mode (s : State) : State :=
  if s.in_low_power then { s with in_low_power := false } else s

/-- `process_midi_message`: ignore clock/active-sensing, refresh
`last_activity`, start a session if idle, leave low-power mode, then
either let the shortcut detector consume the event or write it. -/
def process_midi_message (s : State) (m : Msg) (ts : ℚ) : State :=
  if m.kind = .clock ∨ m.kind = .active_sensing then s
  else
    let s3 := exit_low_power_mode (ensure_recording { s with last_activity := some ts } ts)
    let r := handle_shortcuts s3 m ts
    if r.2 then r.1 else write_message r.1 m ts

/-- Process a list of timestamped messages in arrival order (the steady
state of the control loop, each message drained as it arrives). -/
def runEvents (s : State) (evs : List (Msg × ℚ)) : State :=
  evs.foldl (fun acc e => process_midi_message acc e.1 e.2) s

/-- Fuelled form of the `while not self.message_queue.empty()` loop of
`process_message_queue`: `get_nowait` the head and process it.  A shortcut
trigger inside a processed message clears the queue and ends the loop. -/
def drain_queue_fuel : ℕ → State → State
  | 0, s => s
  | fuel + 1, s =>
    match s.message_queue with
    | [] => s
    | e :: rest =>
      drain_queue_fuel fuel (process_midi_message { s with message_queue := rest } e.1 e.2)

/-- `process_message_queue` as called from `stop_recording`.  Processing a
message never enqueues, so the initial queue length bounds the number of
loop iterations (`drain_queue_empties` below proves the fuel suffices). -/
def drain_queue (s : State) : State :=
  drain_queue_fuel s.message_queue.length s

/-- `stop_recording(suffix)` with the default `skip_queue=False,
skip_buffer=False` (the timeout and shutdown path): guard on `recording`,
drain the queue, flush both shortcut buffers, save. -/
def stop_recording_full (suffix : String) (s : State) : State :=
  if s.recording then
    stop_recording_core suffix false (drain_queue { s with recording := false })
  else s

/-- `enter_low_power_mode`: the boolean result records whether the
power-governor side effect actually fired (guarded by `in_low_power`). -/
def enter_low_power_mode (s : State) : State × Bool :=
  if s.in_low_power then (s, false) else ({ s with in_low_power := true }, true)

/-- `check_session_timeout`: on the 1-second cadence, if recording and
`last_activity` is set (Python truthiness: not `None` and not `0`) and
stale by more than `SESSION_TIMEOUT`, stop the session and enter low-power
mode. -/
def check_session_timeout (s : State) (now : ℚ) : State × Bool :=
  if s.recording then
    match s.last_activity with
    | some la =>
      if la ≠ 0 ∧ SESSION_TIMEOUT < now - la then
        enter_low_power_mode (stop_recording_full "" s)
      else (s, false)
    | none => (s, false)
  else (s, false)

/-- The `last_message_time` threading of consecutive `write_message` calls
applied to a bare timestamp list, from a given previous timestamp. -/
def tick_run_from (p : ℚ) : List ℚ → List ℤ
  | [] => []
  | t :: rest => tickDelta (some p) t :: tick_run_from t rest

/-- Tick deltas a fresh session assigns to events at the given timestamps
(first event diffs against `last_message_time = None`). -/
def tick_run : List ℚ → List ℤ
  | [] => []
  | t :: rest => tickDelta none t :: tick_run_from t rest

/-- The fields `write_message` and its folds never touch. -/
def CoreEq (s t : State) : Prop :=
  t.recording = s.recording ∧ t.in_low_power = s.in_low_power ∧
  t.last_activity = s.last_activity ∧ t.saved_files = s.saved_files ∧
  t.message_queue = s.message_queue ∧ t.session_start_time = s.session_start_time ∧
  t.first_message_time = s.first_message_time

/-- The state a completed three-tap gesture leaves behind (derived normal
form of the `stop_recording(skip_queue=True, skip_buffer=True)` path):
recording off, queue cleared, both shortcut dictionaries reset, track
dropped, and the old track saved under the side's suffix when it held
more than the tempo seed. -/
def triggered_state (side : Side) (s : State) : State :=
  { s with
    recording := false
    message_queue := []
    low_note_state := ⟨0, [], 0⟩
    high_note_state := ⟨0, [], 0⟩
    current_track := none
    saved_files := s.saved_files ++
      (match s.current_track with
       | some tr => if 1 < tr.length then [(side.sfx, tr)] else []
       | none => []) }

/-- The track entries a sequence of `write_message` calls appends, given
the `last_message_time` in force before the first call. -/
def track_writes (lmt : Option ℚ) : List (Msg × ℚ) → List TrackEntry
  | [] => []
  | (m, ts) :: rest => ⟨.midi m, tickDelta lmt ts⟩ :: track_writes (some ts) rest

/-- The `last_message_time` left behind by that sequence of writes. -/
def last_after (lmt : Option ℚ) : List (Msg × ℚ) → Option ℚ
  | [] => lmt
  | (_, ts) :: rest => last_after (some ts) rest

/-- The C5 track invariant: every entry's delta is non-negative and the
entry at index 1 (the first real event written after the tempo seed) has
delta 0. -/
def goodTrack (tr : List TrackEntry) : Prop :=
  (∀ e ∈ tr, 0 ≤ e.time) ∧ (∀ e, tr[1]? = some e → e.time = 0)

/-- Induction invariant behind C5: the live track (when present) is
non-empty and good, a track still at its seed entry means no event has
been written yet (`last_message_time` is `None`), and every saved track
is good. -/
def trackInv (s : State) : Prop :=
  (match s.current_track with
   | some tr => tr ≠ [] ∧ goodTrack tr ∧ (tr.length ≤ 1 → s.last_message_time = none)
   | none => True) ∧
  ∀ p ∈ s.saved_files, goodTrack p.2

/-- Bookkeeping holding while a gesture is pending on `side`: still
recording, the side's tap count, last tap instant and buffer known, and
the other side, track, saved files, `last_message_time` and queue
unchanged since state `s0`. -/
def GestureInv (side : Side) (s0 : State) (c : ℕ) (lt : ℚ) (buf : List (Msg × ℚ))
    (s : State) : Prop :=
  s.recording = true ∧
  (s.noteState side).count = c ∧
  (s.noteState side).last_time = lt ∧
  (s.noteState side).buffer = buf ∧
  s.noteState side.other = s0.noteState side.other ∧
  s.current_track = s0.current_track ∧
  s.saved_files = s0.saved_files ∧
  s.last_message_time = s0.last_message_time ∧
  s.message_queue = s0.message_queue

/-- A sample recording state: two in-time HIGH taps pending (last at
time 5/2), a stray `note_off` pending in the LOW buffer, and a track with
one real event.  Used to exercise the trigger path at concrete inputs. -/
def trigger_sample : State :=
  ⟨true, some 2, some 0, some 0, some 0, false, [],
    some [⟨.set_tempo, 0⟩, ⟨.midi ⟨.note_on, 60, 64⟩, 0⟩],
    ⟨0, [(⟨.note_off, 22, 0⟩, 1)], 0⟩,
    ⟨2, [(⟨.note_on, 106, 9⟩, 2), (⟨.note_on, 106, 9⟩, 5/2)], 5/2⟩, []⟩

theorem write_message_queue (s : State) (m : Msg) (ts : ℚ) :
    (write_message s m ts).message_queue = s.message_queue := by
  unfold write_message
  cases s.current_track <;> rfl

theorem foldl_write_queue (buf : List (Msg × ℚ)) (s : State) :
    (buf.foldl (fun acc p => write_message acc p.1 p.2) s).message_queue =
      s.message_queue := by
  induction buf generalizing s with
  | nil => rfl
  | cons p rest ih => simp [List.foldl_cons, ih, write_message_queue]

theorem setNoteState_queue (s : State) (side : Side) (ns : NoteState) :
    (s.setNoteState side ns).message_queue = s.message_queue := by
  cases side <;> rfl

theorem flush_buffer_queue (s : State) (side : Side) :
    (flush_buffer s side).message_queue = s.message_queue := by
  unfold flush_buffer
  rw [setNoteState_queue, foldl_write_queue]

theorem flush_pending_queue (s : State) :
    (flush_pending s).message_queue = s.message_queue := by
  simp only [flush_pending]
  split <;> split <;> simp [flush_buffer_queue]

theorem flush_shortcut_buffers_queue (s : State) :
    (flush_shortcut_buffers s).message_queue = s.message_queue := by
  simp [flush_shortcut_buffers, flush_buffer_queue]

theorem stop_recording_save_queue (suffix : String) (s : State) :
    (stop_recording_save suffix s).message_queue = s.message_queue := by
  unfold stop_recording_save
  split
  · split <;> rfl
  · rfl

theorem stop_recording_core_queue (suffix : String) (b : Bool) (s : State) :
    (stop_recording_core suffix b s).message_queue = s.message_queue := by
  simp only [stop_recording_core]
  split <;> simp [stop_recording_save_queue, flush_shortcut_buffers_queue]

theorem stop_recording_skip_queue (suffix : String) (s : State) :
    (stop_recording_skip suffix s).message_queue = s.message_queue ∨
      (stop_recording_skip suffix s).message_queue = [] := by
  unfold stop_recording_skip
  split
  · rw [stop_recording_core_queue]; exact Or.inr rfl
  · exact Or.inl rfl

theorem handle_watched_queue (side : Side) (s : State) (m : Msg) (ts : ℚ) :
    (handle_watched side s m ts).1.message_queue = s.message_queue ∨
      (handle_watched side s m ts).1.message_queue = [] := by
  simp only [handle_watched]
  split_ifs <;>
    first
      | (right
         rcases stop_recording_skip_queue side.sfx _ with h | h <;> simpa using h)
      | (left; simp [setNoteState_queue, flush_buffer_queue])

theorem handle_shortcuts_queue (s : State) (m : Msg) (ts : ℚ) :
    (handle_shortcuts s m ts).1.message_queue = s.message_queue ∨
      (handle_shortcuts s m ts).1.message_queue = [] := by
  unfold handle_shortcuts
  split
  · split
    · exact handle_watched_queue .low s m ts
    · split
      · exact handle_watched_queue .high s m ts
      · exact Or.inl (flush_pending_queue s)
  · exact Or.inl (flush_pending_queue s)

theorem start_recording_queue (s : State) (now : ℚ) :
    (start_recording s now).message_queue = s.message_queue := by
  unfold start_recording
  split <;> rfl

theorem ensure_recording_queue (s : State) (ts : ℚ) :
    (ensure_recording s ts).message_queue = s.message_queue := by
  unfold ensure_recording
  split
  · rfl
  · simp [start_recording_queue]

theorem exit_low_power_mode_queue (s : State) :
    (exit_low_power_mode s).message_queue = s.message_queue := by
  unfold exit_low_power_mode
  split <;> rfl

theorem process_midi_message_queue (s : State) (m : Msg) (ts : ℚ) :
    (process_midi_message s m ts).message_queue = s.message_queue ∨
      (process_midi_message s m ts).message_queue = [] := by
  simp only [process_midi_message]
  split
  · exact Or.inl rfl
  · have hq3 :
        (exit_low_power_mode
          (ensure_recording { s with last_activity := some ts } ts)).message_queue =
          s.message_queue := by
      rw [exit_low_power_mode_queue, ensure_recording_queue]
    split
    · rcases handle_shortcuts_queue
        (exit_low_power_mode (ensure_recording { s with last_activity := some ts } ts))
        m ts with h | h
      · rw [h, hq3]; exact Or.inl rfl
      · rw [h]; exact Or.inr rfl
    · rw [write_message_queue]
      rcases handle_shortcuts_queue
        (exit_low_power_mode (ensure_recording { s with last_activity := some ts } ts))
        m ts with h | h
      · rw [h, hq3]; exact Or.inl rfl
      · rw [h]; exact Or.inr rfl

/-- Processing a message never grows the queue, so the fuel
`s.message_queue.length` of `drain_queue` always suffices: the drained
state has an empty queue, exactly as the Python `while` loop guarantees. -/
theorem drain_queue_fuel_empties : ∀ (fuel : ℕ) (s : State),
    s.message_queue.length ≤ fuel → (drain_queue_fuel fuel s).message_queue = [] := by
  intro fuel
  induction fuel with
  | zero =>
    intro s h
    rw [drain_queue_fuel]
    exact List.length_eq_zero.mp (Nat.le_zero.mp h)
  | succ n ih =>
    intro s h
    rw [drain_queue_fuel]
    rcases hq : s.message_queue with _ | ⟨e, rest⟩
    · exact hq
    · apply ih
      rcases process_midi_message_queue { s with message_queue := rest } e.1 e.2 with
        h2 | h2 <;> rw [h2] <;> simp_all

theorem drain_queue_empties (s : State) : (drain_queue s).message_queue = [] :=
  drain_queue_fuel_empties _ s le_rfl

/-! ### The tick conversion (claim C2) -/

theorem max_pyInt_eq_max_floor (q : ℚ) : max 0 (pyInt q) = max 0 ⌊q⌋ := by
  unfold pyInt
  split
  · next h =>
    have hceil : ⌈q⌉ ≤ 0 := Int.ceil_le.mpr (by push_cast; exact h.le)
    rw [max_eq_left hceil, max_eq_left (Int.floor_nonpos h.le)]
  · rfl

theorem tickDelta_none (c : ℚ) : tickDelta none c = 0 := by
  simp [tickDelta, pyInt]

theorem tickDelta_nonneg (prev : Option ℚ) (cur : ℚ) : 0 ≤ tickDelta prev cur := by
  unfold tickDelta
  exact le_max_left 0 _

/-- Normalized form of the conversion: 480 ticks per beat at 2 beats per
second is 960 ticks per second. -/
theorem tickDelta_some (p c : ℚ) : tickDelta (some p) c = max 0 ⌊(c - p) * 960⌋ := by
  unfold tickDelta
  rw [max_pyInt_eq_max_floor]
  norm_num [TICKS_PER_BEAT, DEFAULT_TEMPO, mul_assoc]

/-- C2: the tick conversion is the pure function of the spec: 0 on an
absent previous timestamp, otherwise the floor of
`(cur - prev) * ticks_per_beat * (1000000 / tempo)` clamped to 0; an
earlier `cur` yields 0. -/
theorem tick_conversion_spec (p c : ℚ) :
    tickDelta none c = 0 ∧
    tickDelta (some p) c =
      max 0 ⌊(c - p) * (TICKS_PER_BEAT : ℚ) * (1000000 / (DEFAULT_TEMPO : ℚ))⌋ ∧
    (c < p → tickDelta (some p) c = 0) := by
  refine ⟨tickDelta_none c, ?_, ?_⟩
  · unfold tickDelta
    rw [max_pyInt_eq_max_floor]
  · intro hcp
    rw [tickDelta_some]
    have hneg : (c - p) * 960 ≤ 0 :=
      mul_nonpos_of_nonpos_of_nonneg (by linarith) (by norm_num)
    rw [max_eq_left (Int.floor_nonpos hneg)]

/-- Witness for C2 at concrete inputs. -/
theorem tick_conversion_spec_witness :
    tickDelta none (3 : ℚ) = 0 ∧
    tickDelta (some 5) (3 : ℚ) =
      max 0 ⌊((3 : ℚ) - 5) * (TICKS_PER_BEAT : ℚ) * (1000000 / (DEFAULT_TEMPO : ℚ))⌋ ∧
    tickDelta (some 5) (3 : ℚ) = 0 :=
  ⟨(tick_conversion_spec 5 3).1, (tick_conversion_spec 5 3).2.1,
    (tick_conversion_spec 5 3).2.2 (by norm_num)⟩

/-! ### Accumulated tick error over a run (claim C6) -/

theorem tick_run_from_nonneg (rest : List ℚ) (p : ℚ) :
    ∀ d ∈ tick_run_from p rest, 0 ≤ d := by
  induction rest generalizing p with
  | nil => intro d hd; simp [tick_run_from] at hd
  | cons t r ih =>
    intro d hd
    rw [tick_run_from] at hd
    rcases List.mem_cons.mp hd with h | h
    · rw [h]; exact tickDelta_nonneg _ _
    · exact ih t d h

theorem tick_run_from_bounds (rest : List ℚ) (p : ℚ)
    (hc : List.Chain (· < ·) p rest) :
    (((tick_run_from p rest).sum : ℚ) ≤ (rest.getLastD p - p) * 960) ∧
    ((rest.getLastD p - p) * 960 - ((tick_run_from p rest).sum : ℚ) ≤ rest.length) := by
  induction rest generalizing p with
  | nil => simp [tick_run_from]
  | cons t r ih =>
    rcases List.chain_cons.mp hc with ⟨hpt, hcr⟩
    have hd : tickDelta (some p) t = ⌊(t - p) * 960⌋ := by
      rw [tickDelta_some]
      exact max_eq_right (Int.floor_nonneg.mpr (by nlinarith))
    have hup : (⌊(t - p) * 960⌋ : ℚ) ≤ (t - p) * 960 := Int.floor_le _
    have hlo : (t - p) * 960 - 1 < (⌊(t - p) * 960⌋ : ℚ) := Int.sub_one_lt_floor _
    have hih := ih t hcr
    rw [tick_run_from, List.sum_cons, List.getLastD_cons]
    push_cast [hd]
    push_cast at hih
    constructor <;> [nlinarith [hih.1]; (simp only [List.length_cons]; push_cast; nlinarith [hih.2])]

/-- C6 (amended): over strictly increasing timestamps the deltas are
non-negative, never overshoot the true elapsed time, and undershoot it by
at most one tick per interval (`rest.length` ticks in total) — not by at
most one tick overall. -/
theorem tick_run_accumulated_error (t0 : ℚ) (rest : List ℚ)
    (hc : List.Chain (· < ·) t0 rest) :
    (∀ d ∈ tick_run (t0 :: rest), 0 ≤ d) ∧
    (((tick_run (t0 :: rest)).sum : ℚ) ≤ (rest.getLastD t0 - t0) * 960) ∧
    ((rest.getLastD t0 - t0) * 960 - ((tick_run (t0 :: rest)).sum : ℚ) ≤ rest.length) := by
  have hb := tick_run_from_bounds rest t0 hc
  rw [tick_run]
  refine ⟨?_, ?_, ?_⟩
  · intro d hd
    rcases List.mem_cons.mp hd with h | h
    · rw [h]; exact tickDelta_nonneg _ _
    · exact tick_run_from_nonneg rest t0 d h
  · rw [List.sum_cons, tickDelta_none, zero_add]; exact hb.1
  · rw [List.sum_cons, tickDelta_none, zero_add]; exact hb.2

/-- Witness for C6 (amended) at concrete timestamps 0 < 1 < 2. -/
theorem tick_run_accumulated_error_witness :
    (∀ d ∈ tick_run [(0 : ℚ), 1, 2], 0 ≤ d) ∧
    (((tick_run [(0 : ℚ), 1, 2]).sum : ℚ) ≤ (([(1 : ℚ), 2].getLastD 0 - 0) * 960)) ∧
    ((([(1 : ℚ), 2].getLastD 0 - 0) * 960 - ((tick_run [(0 : ℚ), 1, 2]).sum : ℚ)) ≤
      ([(1 : ℚ), 2] : List ℚ).length) :=
  tick_run_accumulated_error 0 [1, 2] (by norm_num)

/-- Counterexample to C6 as stated: with intervals of 0.9 ticks each, both
deltas floor to 0 and the reconstructed time differs from the true elapsed
time by 1.8 ticks, more than one tick's worth. -/
theorem tick_run_error_exceeds_one_tick :
    List.Chain (· < ·) (0 : ℚ) [9 / 9600, 18 / 9600] ∧
    tick_run [(0 : ℚ), 9 / 9600, 18 / 9600] = [0, 0, 0] ∧
    ¬ (|((18 : ℚ) / 9600 - 0) - ((tick_run [(0 : ℚ), 9 / 9600, 18 / 9600]).sum : ℚ) / 960| ≤
        1 / 960) := by
  have hfl1 : ⌊((9 : ℚ) / 9600 - 0) * 960⌋ = 0 := by norm_num [Int.floor_eq_iff]
  have hfl2 : ⌊((18 : ℚ) / 9600 - 9 / 9600) * 960⌋ = 0 := by norm_num [Int.floor_eq_iff]
  have h1 : tick_run [(0 : ℚ), 9 / 9600, 18 / 9600] = [0, 0, 0] := by
    simp only [tick_run, tick_run_from, tickDelta_none, tickDelta_some, hfl1, hfl2]
    norm_num
  refine ⟨by norm_num, h1, ?_⟩
  rw [h1]
  norm_num [abs_le]

/-! ### Clock and active-sensing events are ignored (claim C7) -/

theorem process_midi_message_clock (s : State) (m : Msg) (ts : ℚ)
    (h : m.kind = .clock ∨ m.kind = .active_sensing) :
    process_midi_message s m ts = s := by
  unfold process_midi_message
  rw [if_pos h]

/-- C7: clock/active-sensing events change nothing at all, and a stream of
only such events starts no session and saves no file. -/
theorem clock_events_ignored (evs : List (Msg × ℚ))
    (h : ∀ e ∈ evs, e.1.kind = .clock ∨ e.1.kind = .active_sensing) :
    runEvents initState evs = initState ∧
    (runEvents initState evs).recording = false ∧
    (runEvents initState evs).saved_files = [] ∧
    (∀ s m ts, (m.kind = .clock ∨ m.kind = .active_sensing) →
      process_midi_message s m ts = s) := by
  have hrun : ∀ (l : List (Msg × ℚ)),
      (∀ e ∈ l, e.1.kind = .clock ∨ e.1.kind = .active_sensing) →
      ∀ s, runEvents s l = s := by
    intro l
    induction l with
    | nil => intro _ s; rfl
    | cons e rest ih =>
      intro hl s
      rw [runEvents, List.foldl_cons,
        process_midi_message_clock s e.1 e.2 (hl e (List.mem_cons_self e rest))]
      exact ih (fun x hx => hl x (List.mem_cons_of_mem e hx)) s
  have h0 := hrun evs h initState
  exact ⟨h0, by rw [h0]; rfl, by rw [h0]; rfl, process_midi_message_clock⟩

/-- Witness for C7 on a concrete clock-then-active-sensing stream. -/
theorem clock_events_ignored_witness :
    runEvents initState [(⟨.clock, 0, 0⟩, 0), (⟨.active_sensing, 0, 0⟩, 1)] = initState ∧
    (runEvents initState [(⟨.clock, 0, 0⟩, 0), (⟨.active_sensing, 0, 0⟩, 1)]).recording = false ∧
    (runEvents initState [(⟨.clock, 0, 0⟩, 0), (⟨.active_sensing, 0, 0⟩, 1)]).saved_files = [] ∧
    (∀ s m ts, (m.kind = .clock ∨ m.kind = .active_sensing) →
      process_midi_message s m ts = s) :=
  clock_events_ignored [(⟨.clock, 0, 0⟩, 0), (⟨.active_sensing, 0, 0⟩, 1)] (by simp)

/-! ### Field preservation through track writes and saves -/

theorem coreEq_refl (s : State) : CoreEq s s :=
  ⟨rfl, rfl, rfl, rfl, rfl, rfl, rfl⟩

theorem coreEq_trans {s t u : State} (h1 : CoreEq s t) (h2 : CoreEq t u) : CoreEq s u := by
  obtain ⟨a1, a2, a3, a4, a5, a6, a7⟩ := h1
  obtain ⟨b1, b2, b3, b4, b5, b6, b7⟩ := h2
  exact ⟨b1.trans a1, b2.trans a2, b3.trans a3, b4.trans a4, b5.trans a5,
    b6.trans a6, b7.trans a7⟩

theorem write_message_coreEq (s : State) (m : Msg) (ts : ℚ) :
    CoreEq s (write_message s m ts) := by
  unfold write_message
  rcases h : s.current_track with _ | tr <;> exact coreEq_refl _

theorem write_message_notes (s : State) (m : Msg) (ts : ℚ) :
    (write_message s m ts).low_note_state = s.low_note_state ∧
    (write_message s m ts).high_note_state = s.high_note_state := by
  unfold write_message
  rcases h : s.current_track with _ | tr <;> exact ⟨rfl, rfl⟩

theorem foldl_write_coreEq (buf : List (Msg × ℚ)) (s : State) :
    CoreEq s (buf.foldl (fun acc p => write_message acc p.1 p.2) s) ∧
    (buf.foldl (fun acc p => write_message acc p.1 p.2) s).low_note_state =
      s.low_note_state ∧
    (buf.foldl (fun acc p => write_message acc p.1 p.2) s).high_note_state =
      s.high_note_state := by
  induction buf generalizing s with
  | nil => exact ⟨coreEq_refl s, rfl, rfl⟩
  | cons p rest ih =>
    rw [List.foldl_cons]
    obtain ⟨hc, hl, hh⟩ := ih (write_message s p.1 p.2)
    exact ⟨coreEq_trans (write_message_coreEq s p.1 p.2) hc,
      hl.trans (write_message_notes s p.1 p.2).1,
      hh.trans (write_message_notes s p.1 p.2).2⟩

theorem setNoteState_coreEq (s : State) (side : Side) (ns : NoteState) :
    CoreEq s (s.setNoteState side ns) := by
  cases side <;> exact ⟨rfl, rfl, rfl, rfl, rfl, rfl, rfl⟩

theorem flush_buffer_coreEq (s : State) (side : Side) :
    CoreEq s (flush_buffer s side) := by
  unfold flush_buffer
  exact coreEq_trans (foldl_write_coreEq _ s).1 (setNoteState_coreEq _ side _)

theorem flush_shortcut_buffers_coreEq (s : State) :
    CoreEq s (flush_shortcut_buffers s) := by
  unfold flush_shortcut_buffers
  exact coreEq_trans (flush_buffer_coreEq s .low) (flush_buffer_coreEq _ .high)

theorem stop_recording_save_fields (suffix : String) (s : State) :
    (stop_recording_save suffix s).recording = s.recording ∧
    (stop_recording_save suffix s).in_low_power = s.in_low_power ∧
    (stop_recording_save suffix s).last_activity = s.last_activity ∧
    (stop_recording_save suffix s).current_track = none := by
  unfold stop_recording_save
  rcases h : s.current_track with _ | tr
  · exact ⟨rfl, rfl, rfl, rfl⟩
  · dsimp only
    split_ifs <;> exact ⟨rfl, rfl, rfl, rfl⟩

theorem drain_queue_nil (s : State) (h : s.message_queue = []) : drain_queue s = s := by
  rw [drain_queue, h]
  rfl

/-! ### Idle timeout and low-power entry (claim C8) -/

/-- C8: once a recording session's `last_activity` is stale by more than
`SESSION_TIMEOUT`, the periodic check stops the session and fires the
low-power transition exactly once; any later check finds `recording`
false, changes nothing and does not fire it again. -/
theorem idle_timeout_low_power (s : State) (now la : ℚ)
    (hrec : s.recording = true) (hla : s.last_activity = some la) (h0 : la ≠ 0)
    (ht : SESSION_TIMEOUT < now - la) (hq : s.message_queue = [])
    (hlp : s.in_low_power = false) :
    (check_session_timeout s now).1.recording = false ∧
    (check_session_timeout s now).1.in_low_power = true ∧
    (check_session_timeout s now).2 = true ∧
    (∀ later : ℚ,
      check_session_timeout (check_session_timeout s now).1 later =
        ((check_session_timeout s now).1, false)) := by
  have hstop : (stop_recording_full "" s).recording = false ∧
      (stop_recording_full "" s).in_low_power = false := by
    unfold stop_recording_full
    rw [if_pos hrec, drain_queue_nil _ (by simp [hq])]
    unfold stop_recording_core
    simp only [Bool.false_eq_true, if_false]
    have hc := flush_shortcut_buffers_coreEq { s with recording := false }
    have hs := stop_recording_save_fields ""
      (flush_shortcut_buffers { s with recording := false })
    refine ⟨hs.1.trans (hc.1.trans rfl), hs.2.1.trans (hc.2.1.trans hlp)⟩
  have hck : check_session_timeout s now =
      enter_low_power_mode (stop_recording_full "" s) := by
    unfold check_session_timeout
    rw [if_pos hrec, hla]
    dsimp only
    rw [if_pos ⟨h0, ht⟩]
  have hen : enter_low_power_mode (stop_recording_full "" s) =
      ({ stop_recording_full "" s with in_low_power := true }, true) := by
    unfold enter_low_power_mode
    rw [if_neg (by rw [hstop.2]; exact Bool.false_ne_true)]
  rw [hck, hen]
  refine ⟨hstop.1, rfl, rfl, ?_⟩
  intro later
  unfold check_session_timeout
  rw [if_neg (by simp [hstop.1])]

/-- Witness for C8 at a concrete stale state. -/
theorem idle_timeout_low_power_witness :
    (check_session_timeout
      { initState with recording := true, last_activity := some 1 } 7).1.recording = false ∧
    (check_session_timeout
      { initState with recording := true, last_activity := some 1 } 7).1.in_low_power = true ∧
    (check_session_timeout
      { initState with recording := true, last_activity := some 1 } 7).2 = true ∧
    (∀ later : ℚ,
      check_session_timeout
        (check_session_timeout
          { initState with recording := true, last_activity := some 1 } 7).1 later =
        ((check_session_timeout
          { initState with recording := true, last_activity := some 1 } 7).1, false)) :=
  idle_timeout_low_power _ 7 1 rfl rfl (by norm_num)
    (by norm_num [SESSION_TIMEOUT]) rfl rfl

/-! ### Shortcut-detector step lemmas -/

theorem noteState_set_same (s : State) (side : Side) (ns : NoteState) :
    (s.setNoteState side ns).noteState side = ns := by
  cases side <;> rfl

theorem noteState_set_other (s : State) (side : Side) (ns : NoteState) :
    (s.setNoteState side ns).noteState side.other = s.noteState side.other := by
  cases side <;> rfl

theorem set_set (s : State) (side : Side) (a b : NoteState) :
    (s.setNoteState side a).setNoteState side b = s.setNoteState side b := by
  cases side <;> rfl

theorem setNoteState_fields (s : State) (side : Side) (ns : NoteState) :
    (s.setNoteState side ns).recording = s.recording ∧
    (s.setNoteState side ns).in_low_power = s.in_low_power ∧
    (s.setNoteState side ns).last_activity = s.last_activity ∧
    (s.setNoteState side ns).current_track = s.current_track ∧
    (s.setNoteState side ns).saved_files = s.saved_files ∧
    (s.setNoteState side ns).last_message_time = s.last_message_time := by
  cases side <;> exact ⟨rfl, rfl, rfl, rfl, rfl, rfl⟩

/-- A note on/off whose note matches a side's watched note is dispatched
to that side's machine. -/
theorem handle_shortcuts_watched (side : Side) (s : State) (m : Msg) (ts : ℚ)
    (hk : m.kind = .note_on ∨ m.kind = .note_off) (hn : m.note = side.note) :
    handle_shortcuts s m ts = handle_watched side s m ts := by
  cases side <;> simp only [Side.note] at hn
  · unfold handle_shortcuts
    rw [if_pos hk, if_pos hn]
  · unfold handle_shortcuts
    rw [if_pos hk, if_neg (by rw [hn]; norm_num [LOW_BLACK_NOTE, HIGH_BLACK_NOTE]),
      if_pos hn]

/-- `handle_watched` on a watched `note_off`: buffer the event, report
handled, touch nothing else. -/
theorem hw_note_off (side : Side) (s : State) (m : Msg) (ts : ℚ) (hk : m.kind = .note_off) :
    handle_watched side s m ts =
      (s.setNoteState side
        { s.noteState side with buffer := (s.noteState side).buffer ++ [(m, ts)] }, true) := by
  have hno : ¬(m.kind = .note_on) := by rw [hk]; intro h; exact nomatch h
  have hflush : ¬(m.kind = .note_on ∧ 0 < (s.noteState side).count ∧
      SHORTCUT_TIMEOUT < ts - (s.noteState side).last_time) := fun hc => hno hc.1
  unfold handle_watched
  rw [if_neg hflush]
  dsimp only
  rw [if_neg hno]

/-- `handle_watched` on a watched `note_on` that neither times out the
pending gesture nor completes it: buffer, bump the count, refresh
`last_time`, report handled. -/
theorem hw_note_on_no_trigger (side : Side) (s : State) (m : Msg) (ts : ℚ)
    (hk : m.kind = .note_on)
    (hcnt : (s.noteState side).count + 1 < 3)
    (hgap : (s.noteState side).count = 0 ∨
      ¬(SHORTCUT_TIMEOUT < ts - (s.noteState side).last_time)) :
    handle_watched side s m ts =
      (s.setNoteState side
        ⟨(s.noteState side).count + 1,
          (s.noteState side).buffer ++ [(m, ts)], ts⟩, true) := by
  have hflush : ¬(m.kind = .note_on ∧ 0 < (s.noteState side).count ∧
      SHORTCUT_TIMEOUT < ts - (s.noteState side).last_time) := by
    rcases hgap with h | h
    · rintro ⟨-, hc, -⟩; omega
    · rintro ⟨-, -, hlt⟩; exact h hlt
  unfold handle_watched
  rw [if_neg hflush]
  dsimp only
  rw [if_pos hk, noteState_set_same, set_set]
  dsimp only
  rw [noteState_set_same]
  dsimp only
  rw [if_neg (by omega)]

/-- `handle_watched` on the third in-time tap: the gesture fires and
yields the `triggered_state`. -/
theorem hw_trigger (side : Side) (s : State) (m : Msg) (ts : ℚ)
    (hk : m.kind = .note_on) (hrec : s.recording = true)
    (hcnt : (s.noteState side).count = 2)
    (hgap : ¬(SHORTCUT_TIMEOUT < ts - (s.noteState side).last_time)) :
    handle_watched side s m ts = (triggered_state side s, true) := by
  have hflush : ¬(m.kind = .note_on ∧ 0 < (s.noteState side).count ∧
      SHORTCUT_TIMEOUT < ts - (s.noteState side).last_time) := fun hc => hgap hc.2.2
  unfold handle_watched
  rw [if_neg hflush]
  dsimp only
  rw [if_pos hk, noteState_set_same, set_set]
  dsimp only
  rw [noteState_set_same]
  dsimp only
  rw [if_pos (by omega)]
  cases side <;>
    (rcases htr : s.current_track with _ | tr <;>
      simp [stop_recording_skip, stop_recording_core, stop_recording_save,
        triggered_state, State.setNoteState, Side.sfx, hrec, htr] <;>
      split_ifs <;> simp)

/-! ### Process-level step lemmas for pending gestures -/

theorem ensure_recording_id (s : State) (ts : ℚ) (h : s.recording = true) :
    ensure_recording s ts = s := by
  unfold ensure_recording
  rw [if_pos h]

theorem exit_low_power_mode_eq (s : State) :
    exit_low_power_mode s = { s with in_low_power := false } := by
  unfold exit_low_power_mode
  split
  · rfl
  · next h =>
    have hf : s.in_low_power = false := by revert h; cases s.in_low_power <;> simp
    cases s
    simp_all

theorem noteState_activity (s : State) (side : Side) (x : Option ℚ) (b : Bool) :
    ({ s with last_activity := x, in_low_power := b } : State).noteState side =
      s.noteState side := by
  cases side <;> rfl

/-- While recording, a musical event reduces to the shortcut dispatch on
the activity-refreshed, low-power-exited state. -/
theorem pm_eq (s : State) (m : Msg) (ts : ℚ)
    (hk : m.kind = .note_on ∨ m.kind = .note_off) (hrec : s.recording = true) :
    process_midi_message s m ts =
      (if (handle_shortcuts { s with last_activity := some ts, in_low_power := false } m ts).2
       then (handle_shortcuts { s with last_activity := some ts, in_low_power := false } m ts).1
       else write_message
         (handle_shortcuts { s with last_activity := some ts, in_low_power := false } m ts).1
         m ts) := by
  have hnc : ¬(m.kind = .clock ∨ m.kind = .active_sensing) := by
    rcases hk with h | h <;> rw [h] <;> rintro (hc | hc) <;> exact nomatch hc
  unfold process_midi_message
  rw [if_neg hnc]
  dsimp only
  rw [ensure_recording_id ({ s with last_activity := some ts } : State) ts hrec,
    exit_low_power_mode_eq]

/-- A buffered `note_off` on the watched note extends the buffer and
keeps the rest of the gesture bookkeeping intact. -/
theorem gesture_off_step (side : Side) (s0 : State) (c : ℕ) (lt : ℚ)
    (buf : List (Msg × ℚ)) (s : State) (m : Msg) (ts : ℚ)
    (hk : m.kind = .note_off) (hn : m.note = side.note)
    (hinv : GestureInv side s0 c lt buf s) :
    GestureInv side s0 c lt (buf ++ [(m, ts)]) (process_midi_message s m ts) := by
  obtain ⟨h1, h2, h3, h4, h5, h6, h7, h8, h9⟩ := hinv
  rw [pm_eq s m ts (Or.inr hk) h1,
    handle_shortcuts_watched side _ m ts (Or.inr hk) hn, hw_note_off side _ m ts hk]
  dsimp only
  unfold GestureInv
  cases side <;> simp_all [State.setNoteState, State.noteState, Side.other]

/-- An in-time watched `note_on` that does not complete the gesture
buffers the tap, bumps the count and refreshes the last tap instant. -/
theorem gesture_on_step (side : Side) (s0 : State) (c : ℕ) (lt : ℚ)
    (buf : List (Msg × ℚ)) (s : State) (m : Msg) (ts : ℚ)
    (hk : m.kind = .note_on) (hn : m.note = side.note)
    (hinv : GestureInv side s0 c lt buf s)
    (hcnt : c + 1 < 3) (hgap : c = 0 ∨ ¬(SHORTCUT_TIMEOUT < ts - lt)) :
    GestureInv side s0 (c + 1) ts (buf ++ [(m, ts)]) (process_midi_message s m ts) := by
  obtain ⟨h1, h2, h3, h4, h5, h6, h7, h8, h9⟩ := hinv
  have hcs : (({ s with last_activity := some ts, in_low_power := false } :
      State).noteState side).count = c := by rw [noteState_activity]; exact h2
  have hls : (({ s with last_activity := some ts, in_low_power := false } :
      State).noteState side).last_time = lt := by rw [noteState_activity]; exact h3
  rw [pm_eq s m ts (Or.inl hk) h1,
    handle_shortcuts_watched side _ m ts (Or.inl hk) hn,
    hw_note_on_no_trigger side _ m ts hk (by rw [hcs]; exact hcnt)
      (by rw [hcs, hls]; exact hgap)]
  dsimp only
  unfold GestureInv
  cases side <;> simp_all [State.setNoteState, State.noteState, Side.other]

/-- The third in-time tap: the gesture fires, the session stops, both
shortcut dictionaries reset, the track is dropped, and the pre-gesture
track is saved under the side's suffix exactly when it held more than the
tempo seed. -/
theorem gesture_trigger_step (side : Side) (s0 : State) (lt : ℚ)
    (buf : List (Msg × ℚ)) (s : State) (m : Msg) (ts : ℚ)
    (hk : m.kind = .note_on) (hn : m.note = side.note)
    (hinv : GestureInv side s0 2 lt buf s)
    (hgap : ¬(SHORTCUT_TIMEOUT < ts - lt)) :
    (process_midi_message s m ts).recording = false ∧
    (process_midi_message s m ts).low_note_state = ⟨0, [], 0⟩ ∧
    (process_midi_message s m ts).high_note_state = ⟨0, [], 0⟩ ∧
    (process_midi_message s m ts).current_track = none ∧
    (process_midi_message s m ts).message_queue = [] ∧
    (process_midi_message s m ts).saved_files = s0.saved_files ++
      (match s0.current_track with
       | some tr => if 1 < tr.length then [(side.sfx, tr)] else []
       | none => []) := by
  obtain ⟨h1, h2, h3, h4, h5, h6, h7, h8, h9⟩ := hinv
  have hcs : (({ s with last_activity := some ts, in_low_power := false } :
      State).noteState side).count = 2 := by rw [noteState_activity]; exact h2
  have hls : (({ s with last_activity := some ts, in_low_power := false } :
      State).noteState side).last_time = lt := by rw [noteState_activity]; exact h3
  rw [pm_eq s m ts (Or.inl hk) h1,
    handle_shortcuts_watched side _ m ts (Or.inl hk) hn,
    hw_trigger side ({ s with last_activity := some ts, in_low_power := false } : State)
      m ts hk (by exact h1) hcs (by rw [hls]; exact hgap)]
  rw [if_pos rfl]
  unfold triggered_state
  refine ⟨rfl, rfl, rfl, rfl, rfl, ?_⟩
  dsimp only
  rw [h6, h7]

/-- Buffered watched `note_off` runs extend the buffer and preserve the
rest of the gesture bookkeeping. -/
theorem gesture_offs_run (side : Side) (s0 : State) (c : ℕ) (lt : ℚ)
    (offs : List (Msg × ℚ))
    (hoffs : ∀ e ∈ offs, e.1.kind = .note_off ∧ e.1.note = side.note) :
    ∀ s buf, GestureInv side s0 c lt buf s →
      GestureInv side s0 c lt (buf ++ offs) (runEvents s offs) := by
  induction offs with
  | nil => intro s buf h; rw [List.append_nil]; exact h
  | cons e rest ih =>
    intro s buf h
    rw [runEvents, List.foldl_cons]
    have hstep := gesture_off_step side s0 c lt buf s e.1 e.2
      (hoffs e (List.mem_cons_self e rest)).1
      (hoffs e (List.mem_cons_self e rest)).2 h
    have h2 := ih (fun x hx => hoffs x (List.mem_cons_of_mem e hx)) _ _ hstep
    rw [List.append_assoc, List.singleton_append] at h2
    exact h2

theorem runEvents_append (s : State) (l1 l2 : List (Msg × ℚ)) :
    runEvents s (l1 ++ l2) = runEvents (runEvents s l1) l2 := by
  unfold runEvents
  rw [List.foldl_append]

theorem runEvents_cons (s : State) (e : Msg × ℚ) (l : List (Msg × ℚ)) :
    runEvents s (e :: l) = runEvents (process_midi_message s e.1 e.2) l := by
  unfold runEvents
  rw [List.foldl_cons]

/-! ### The three-tap gesture (claim C1) -/

/-- C1 (amended): from any recording state with no pending taps on the
chosen reserved note, three `note_on` taps on it, each within the shortcut
timeout of the previous tap and arbitrarily interleaved with `note_off`
events on the same note, force the session to stop: the queue and both
shortcut buffers are discarded, the track is dropped, and a file — tagged
with no suffix for the LOW note and with "-bookmark" for the HIGH note —
is saved exactly when the pre-gesture track held more than the tempo seed;
the saved track is the pre-gesture track, so none of the gesture's events
appear in it. -/
theorem gesture_forced_stop (side : Side) (s0 : State)
    (offs0 offs1 offs2 : List (Msg × ℚ)) (v1 v2 v3 : ℕ) (t1 t2 t3 : ℚ)
    (hrec : s0.recording = true) (hcount : (s0.noteState side).count = 0)
    (hoffs : ∀ e ∈ offs0 ++ offs1 ++ offs2,
      e.1.kind = .note_off ∧ e.1.note = side.note)
    (h12 : t2 - t1 ≤ SHORTCUT_TIMEOUT) (h23 : t3 - t2 ≤ SHORTCUT_TIMEOUT) :
    ∀ sF, sF = runEvents s0
        (offs0 ++ ((⟨.note_on, side.note, v1⟩, t1) ::
          (offs1 ++ ((⟨.note_on, side.note, v2⟩, t2) ::
            (offs2 ++ [(⟨.note_on, side.note, v3⟩, t3)]))))) →
      sF.recording = false ∧
      sF.low_note_state = ⟨0, [], 0⟩ ∧
      sF.high_note_state = ⟨0, [], 0⟩ ∧
      sF.current_track = none ∧
      sF.message_queue = [] ∧
      sF.saved_files = s0.saved_files ++
        (match s0.current_track with
         | some tr => if 1 < tr.length then [(side.sfx, tr)] else []
         | none => []) := by
  intro sF hsF
  have ho0 : ∀ e ∈ offs0, e.1.kind = .note_off ∧ e.1.note = side.note :=
    fun e he => hoffs e (List.mem_append_left _ (List.mem_append_left _ he))
  have ho1 : ∀ e ∈ offs1, e.1.kind = .note_off ∧ e.1.note = side.note :=
    fun e he => hoffs e (List.mem_append_left _ (List.mem_append_right _ he))
  have ho2 : ∀ e ∈ offs2, e.1.kind = .note_off ∧ e.1.note = side.note :=
    fun e he => hoffs e (List.mem_append_right _ he)
  have i0 : GestureInv side s0 0 ((s0.noteState side).last_time)
      ((s0.noteState side).buffer) s0 :=
    ⟨hrec, hcount, rfl, rfl, rfl, rfl, rfl, rfl, rfl⟩
  have i1 := gesture_offs_run side s0 0 _ offs0 ho0 s0 _ i0
  have i2 := gesture_on_step side s0 0 _ _ _ ⟨.note_on, side.note, v1⟩ t1 rfl rfl i1
    (by omega) (Or.inl rfl)
  have i3 := gesture_offs_run side s0 1 t1 offs1 ho1 _ _ i2
  have i4 := gesture_on_step side s0 1 t1 _ _ ⟨.note_on, side.note, v2⟩ t2 rfl rfl i3
    (by omega) (Or.inr (not_lt.mpr h12))
  have i5 := gesture_offs_run side s0 2 t2 offs2 ho2 _ _ i4
  have i6 := gesture_trigger_step side s0 t2 _ _ ⟨.note_on, side.note, v3⟩ t3 rfl rfl i5
    (not_lt.mpr h23)
  rw [hsF, runEvents_append, runEvents_cons, runEvents_append, runEvents_cons,
    runEvents_append, runEvents_cons]
  exact i6

/-- Witness for C1 (amended): LOW-side gesture with one interleaved
`note_off`, fired on a session whose track already holds one real event
(started by an ordinary note at time 0). -/
theorem gesture_forced_stop_witness :
    (runEvents (runEvents initState [(⟨.note_on, 60, 64⟩, 0)])
        ([] ++ ((⟨.note_on, Side.low.note, 64⟩, 1) ::
          ([(⟨.note_off, Side.low.note, 0⟩, 5/4)] ++ ((⟨.note_on, Side.low.note, 64⟩, 3/2) ::
            ([] ++ [(⟨.note_on, Side.low.note, 64⟩, 2)])))))).recording = false ∧
    (runEvents (runEvents initState [(⟨.note_on, 60, 64⟩, 0)])
        ([] ++ ((⟨.note_on, Side.low.note, 64⟩, 1) ::
          ([(⟨.note_off, Side.low.note, 0⟩, 5/4)] ++ ((⟨.note_on, Side.low.note, 64⟩, 3/2) ::
            ([] ++ [(⟨.note_on, Side.low.note, 64⟩, 2)])))))).low_note_state = ⟨0, [], 0⟩ ∧
    (runEvents (runEvents initState [(⟨.note_on, 60, 64⟩, 0)])
        ([] ++ ((⟨.note_on, Side.low.note, 64⟩, 1) ::
          ([(⟨.note_off, Side.low.note, 0⟩, 5/4)] ++ ((⟨.note_on, Side.low.note, 64⟩, 3/2) ::
            ([] ++ [(⟨.note_on, Side.low.note, 64⟩, 2)])))))).high_note_state = ⟨0, [], 0⟩ ∧
    (runEvents (runEvents initState [(⟨.note_on, 60, 64⟩, 0)])
        ([] ++ ((⟨.note_on, Side.low.note, 64⟩, 1) ::
          ([(⟨.note_off, Side.low.note, 0⟩, 5/4)] ++ ((⟨.note_on, Side.low.note, 64⟩, 3/2) ::
            ([] ++ [(⟨.note_on, Side.low.note, 64⟩, 2)])))))).current_track = none ∧
    (runEvents (runEvents initState [(⟨.note_on, 60, 64⟩, 0)])
        ([] ++ ((⟨.note_on, Side.low.note, 64⟩, 1) ::
          ([(⟨.note_off, Side.low.note, 0⟩, 5/4)] ++ ((⟨.note_on, Side.low.note, 64⟩, 3/2) ::
            ([] ++ [(⟨.note_on, Side.low.note, 64⟩, 2)])))))).message_queue = [] ∧
    (runEvents (runEvents initState [(⟨.note_on, 60, 64⟩, 0)])
        ([] ++ ((⟨.note_on, Side.low.note, 64⟩, 1) ::
          ([(⟨.note_off, Side.low.note, 0⟩, 5/4)] ++ ((⟨.note_on, Side.low.note, 64⟩, 3/2) ::
            ([] ++ [(⟨.note_on, Side.low.note, 64⟩, 2)])))))).saved_files =
      (runEvents initState [(⟨.note_on, 60, 64⟩, 0)]).saved_files ++
        (match (runEvents initState [(⟨.note_on, 60, 64⟩, 0)]).current_track with
         | some tr => if 1 < tr.length then [(Side.low.sfx, tr)] else []
         | none => []) :=
  gesture_forced_stop .low (runEvents initState [(⟨.note_on, 60, 64⟩, 0)])
    [] [(⟨.note_off, Side.low.note, 0⟩, 5/4)] [] 64 64 64 1 (3/2) 2
    rfl rfl
    (by intro e he; simp only [List.append_nil, List.nil_append, List.mem_singleton] at he;
        subst he; exact ⟨rfl, rfl⟩)
    (by norm_num [SHORTCUT_TIMEOUT]) (by norm_num [SHORTCUT_TIMEOUT]) _ rfl

/-- Counterexample to C1 as stated: three in-time taps on the LOW note
(gaps of 1/2 second) whose session contains nothing else do trigger the
forced stop (`recording` ends false), but no file is saved at all — the
track held only the tempo seed, so `stop_recording` writes nothing. -/
theorem gesture_without_content_saves_nothing :
    (runEvents initState
      [(⟨.note_on, 22, 64⟩, 0), (⟨.note_on, 22, 64⟩, 1/2),
        (⟨.note_on, 22, 64⟩, 1)]).saved_files = [] ∧
    (runEvents initState
      [(⟨.note_on, 22, 64⟩, 0), (⟨.note_on, 22, 64⟩, 1/2),
        (⟨.note_on, 22, 64⟩, 1)]).recording = false := by
  iterate 8
    try (simp only [runEvents, List.foldl, process_midi_message, ensure_recording,
      exit_low_power_mode, start_recording, handle_shortcuts, handle_watched, flush_pending,
      flush_buffer, flush_shortcut_buffers, write_message, stop_recording_skip,
      stop_recording_core, stop_recording_save, State.noteState, State.setNoteState,
      Side.note, Side.sfx, tickDelta, pyInt, initState, SHORTCUT_TIMEOUT, LOW_BLACK_NOTE,
      HIGH_BLACK_NOTE, List.length, List.append_eq, List.cons_append, List.nil_append,
      reduceCtorEq, reduceIte])
    try norm_num
  try rfl

/-! ### A completed gesture discards both sides' buffers (claim C10) -/

/-- C10: when the three-tap gesture triggers on one reserved note, the
`skip_buffer` stop path resets both shortcut dictionaries, so whatever
was pending in the other side's buffer is discarded too: the saved file
(when the track has real content) is exactly the pre-trigger track — no
buffered event of either side is written. -/
theorem trigger_resets_both_sides (side : Side) (s : State) (v : ℕ) (ts : ℚ)
    (hrec : s.recording = true)
    (hcnt : (s.noteState side).count = 2)
    (hgap : ¬(SHORTCUT_TIMEOUT < ts - (s.noteState side).last_time)) :
    (handle_shortcuts s ⟨.note_on, side.note, v⟩ ts).2 = true ∧
    (handle_shortcuts s ⟨.note_on, side.note, v⟩ ts).1.low_note_state = ⟨0, [], 0⟩ ∧
    (handle_shortcuts s ⟨.note_on, side.note, v⟩ ts).1.high_note_state = ⟨0, [], 0⟩ ∧
    (handle_shortcuts s ⟨.note_on, side.note, v⟩ ts).1.current_track = none ∧
    (handle_shortcuts s ⟨.note_on, side.note, v⟩ ts).1.saved_files = s.saved_files ++
      (match s.current_track with
       | some tr => if 1 < tr.length then [(side.sfx, tr)] else []
       | none => []) := by
  rw [handle_shortcuts_watched side s _ ts (Or.inl rfl) rfl,
    hw_trigger side s _ ts rfl hrec hcnt hgap]
  unfold triggered_state
  exact ⟨rfl, rfl, rfl, rfl, rfl⟩

/-- Witness for C10: a HIGH-side trigger in a state where the LOW buffer
still holds a pending `note_off`; both dictionaries come back empty and
the saved track is the pre-trigger one. -/
theorem trigger_resets_both_sides_witness :
    (handle_shortcuts trigger_sample ⟨.note_on, Side.high.note, 0⟩ 3).2 = true ∧
    (handle_shortcuts trigger_sample ⟨.note_on, Side.high.note, 0⟩ 3).1.low_note_state =
      ⟨0, [], 0⟩ ∧
    (handle_shortcuts trigger_sample ⟨.note_on, Side.high.note, 0⟩ 3).1.high_note_state =
      ⟨0, [], 0⟩ ∧
    (handle_shortcuts trigger_sample ⟨.note_on, Side.high.note, 0⟩ 3).1.current_track =
      none ∧
    (handle_shortcuts trigger_sample ⟨.note_on, Side.high.note, 0⟩ 3).1.saved_files =
      trigger_sample.saved_files ++
      (match trigger_sample.current_track with
       | some tr => if 1 < tr.length then [(Side.high.sfx, tr)] else []
       | none => []) :=
  trigger_resets_both_sides .high trigger_sample 0 3 rfl rfl
    (by norm_num [trigger_sample, State.noteState, SHORTCUT_TIMEOUT])

/-! ### Zero-velocity note_on taps (claim C9) -/

/-- The watched-note machine never reads the velocity: for any two
velocities the handled flag, tap count, last tap instant, recording flag,
track and saved files agree (only the buffered copy of the message can
differ). -/
theorem hw_velocity (side : Side) (s : State) (ts : ℚ) (v w : ℕ) :
    (handle_watched side s ⟨.note_on, side.note, v⟩ ts).2 =
      (handle_watched side s ⟨.note_on, side.note, w⟩ ts).2 ∧
    (handle_watched side s ⟨.note_on, side.note, v⟩ ts).2 = true ∧
    ((handle_watched side s ⟨.note_on, side.note, v⟩ ts).1.noteState side).count =
      ((handle_watched side s ⟨.note_on, side.note, w⟩ ts).1.noteState side).count ∧
    ((handle_watched side s ⟨.note_on, side.note, v⟩ ts).1.noteState side).last_time =
      ((handle_watched side s ⟨.note_on, side.note, w⟩ ts).1.noteState side).last_time ∧
    (handle_watched side s ⟨.note_on, side.note, v⟩ ts).1.recording =
      (handle_watched side s ⟨.note_on, side.note, w⟩ ts).1.recording ∧
    (handle_watched side s ⟨.note_on, side.note, v⟩ ts).1.current_track =
      (handle_watched side s ⟨.note_on, side.note, w⟩ ts).1.current_track ∧
    (handle_watched side s ⟨.note_on, side.note, v⟩ ts).1.saved_files =
      (handle_watched side s ⟨.note_on, side.note, w⟩ ts).1.saved_files := by
  cases side <;>
    (simp only [handle_watched, stop_recording_skip, stop_recording_core,
      stop_recording_save, State.noteState, State.setNoteState, Side.sfx, Side.note] <;>
      split_ifs <;> simp_all)

/-- C9: the detector treats a zero-velocity `note_on` on a reserved note
exactly like any other `note_on` there: same handled flag and same effect
on tap count, last tap instant, recording, track and saved files as any
velocity (velocity is never consulted); in particular it increments the
count and stamps the tap instant when no flush or trigger applies, and it
completes the three-tap gesture as a third tap. -/
theorem zero_velocity_note_on (side : Side) (s : State) (ts : ℚ) (v : ℕ) :
    ((handle_shortcuts s ⟨.note_on, side.note, v⟩ ts).2 =
      (handle_shortcuts s ⟨.note_on, side.note, 0⟩ ts).2 ∧
    (handle_shortcuts s ⟨.note_on, side.note, 0⟩ ts).2 = true ∧
    ((handle_shortcuts s ⟨.note_on, side.note, v⟩ ts).1.noteState side).count =
      ((handle_shortcuts s ⟨.note_on, side.note, 0⟩ ts).1.noteState side).count ∧
    ((handle_shortcuts s ⟨.note_on, side.note, v⟩ ts).1.noteState side).last_time =
      ((handle_shortcuts s ⟨.note_on, side.note, 0⟩ ts).1.noteState side).last_time ∧
    (handle_shortcuts s ⟨.note_on, side.note, v⟩ ts).1.recording =
      (handle_shortcuts s ⟨.note_on, side.note, 0⟩ ts).1.recording ∧
    (handle_shortcuts s ⟨.note_on, side.note, v⟩ ts).1.current_track =
      (handle_shortcuts s ⟨.note_on, side.note, 0⟩ ts).1.current_track ∧
    (handle_shortcuts s ⟨.note_on, side.note, v⟩ ts).1.saved_files =
      (handle_shortcuts s ⟨.note_on, side.note, 0⟩ ts).1.saved_files) ∧
    ((s.noteState side).count + 1 < 3 →
      ((s.noteState side).count = 0 ∨
        ¬(SHORTCUT_TIMEOUT < ts - (s.noteState side).last_time)) →
      ((handle_shortcuts s ⟨.note_on, side.note, 0⟩ ts).1.noteState side).count =
        (s.noteState side).count + 1 ∧
      ((handle_shortcuts s ⟨.note_on, side.note, 0⟩ ts).1.noteState side).last_time = ts) ∧
    (s.recording = true → (s.noteState side).count = 2 →
      ¬(SHORTCUT_TIMEOUT < ts - (s.noteState side).last_time) →
      (handle_shortcuts s ⟨.note_on, side.note, 0⟩ ts).1.recording = false) := by
  refine ⟨?_, ?_, ?_⟩
  · rw [handle_shortcuts_watched side s _ ts (Or.inl rfl) rfl,
      handle_shortcuts_watched side s _ ts (Or.inl rfl) rfl]
    have h := hw_velocity side s ts v 0
    exact ⟨h.1, h.1.symm.trans h.2.1, h.2.2.1, h.2.2.2.1, h.2.2.2.2.1,
      h.2.2.2.2.2.1, h.2.2.2.2.2.2⟩
  · intro hcnt hgap
    rw [handle_shortcuts_watched side s _ ts (Or.inl rfl) rfl,
      hw_note_on_no_trigger side s _ ts rfl hcnt hgap]
    dsimp only
    rw [noteState_set_same]
    exact ⟨rfl, rfl⟩
  · intro hrec hcnt hgap
    rw [handle_shortcuts_watched side s _ ts (Or.inl rfl) rfl,
      hw_trigger side s _ ts rfl hrec hcnt hgap]
    rfl

/-- Witness for C9 at a concrete pending-gesture state. -/
theorem zero_velocity_note_on_witness :
    ((handle_shortcuts trigger_sample ⟨.note_on, Side.low.note, 64⟩ 1).2 =
      (handle_shortcuts trigger_sample ⟨.note_on, Side.low.note, 0⟩ 1).2 ∧
    (handle_shortcuts trigger_sample ⟨.note_on, Side.low.note, 0⟩ 1).2 = true ∧
    ((handle_shortcuts trigger_sample ⟨.note_on, Side.low.note, 64⟩ 1).1.noteState .low).count =
      ((handle_shortcuts trigger_sample ⟨.note_on, Side.low.note, 0⟩ 1).1.noteState .low).count ∧
    ((handle_shortcuts trigger_sample ⟨.note_on, Side.low.note, 64⟩ 1).1.noteState .low).last_time =
      ((handle_shortcuts trigger_sample ⟨.note_on, Side.low.note, 0⟩ 1).1.noteState .low).last_time ∧
    (handle_shortcuts trigger_sample ⟨.note_on, Side.low.note, 64⟩ 1).1.recording =
      (handle_shortcuts trigger_sample ⟨.note_on, Side.low.note, 0⟩ 1).1.recording ∧
    (handle_shortcuts trigger_sample ⟨.note_on, Side.low.note, 64⟩ 1).1.current_track =
      (handle_shortcuts trigger_sample ⟨.note_on, Side.low.note, 0⟩ 1).1.current_track ∧
    (handle_shortcuts trigger_sample ⟨.note_on, Side.low.note, 64⟩ 1).1.saved_files =
      (handle_shortcuts trigger_sample ⟨.note_on, Side.low.note, 0⟩ 1).1.saved_files) ∧
    ((trigger_sample.noteState .low).count + 1 < 3 →
      ((trigger_sample.noteState .low).count = 0 ∨
        ¬(SHORTCUT_TIMEOUT < 1 - (trigger_sample.noteState .low).last_time)) →
      ((handle_shortcuts trigger_sample ⟨.note_on, Side.low.note, 0⟩ 1).1.noteState .low).count =
        (trigger_sample.noteState .low).count + 1 ∧
      ((handle_shortcuts trigger_sample ⟨.note_on, Side.low.note, 0⟩ 1).1.noteState .low).last_time = 1) ∧
    (trigger_sample.recording = true → (trigger_sample.noteState .low).count = 2 →
      ¬(SHORTCUT_TIMEOUT < 1 - (trigger_sample.noteState .low).last_time) →
      (handle_shortcuts trigger_sample ⟨.note_on, Side.low.note, 0⟩ 1).1.recording = false) :=
  zero_velocity_note_on .low trigger_sample 1 64

/-! ### Flushing on non-matching events (claim C3) -/

theorem foldl_write_track (buf : List (Msg × ℚ)) : ∀ (s : State) (tr : List TrackEntry),
    s.current_track = some tr →
    (buf.foldl (fun acc p => write_message acc p.1 p.2) s).current_track =
      some (tr ++ track_writes s.last_message_time buf) ∧
    (buf.foldl (fun acc p => write_message acc p.1 p.2) s).last_message_time =
      last_after s.last_message_time buf := by
  induction buf with
  | nil => intro s tr htr; simp [track_writes, last_after, htr]
  | cons p rest ih =>
    rcases p with ⟨m, t⟩
    intro s tr htr
    rw [List.foldl_cons]
    have hw : (write_message s m t).current_track =
        some (tr ++ [⟨.midi m, tickDelta s.last_message_time t⟩]) ∧
        (write_message s m t).last_message_time = some t := by
      unfold write_message
      rw [htr]
      exact ⟨rfl, rfl⟩
    obtain ⟨h1, h2⟩ := ih (write_message s m t) _ hw.1
    rw [h1, h2, hw.2, track_writes, last_after, List.append_assoc, List.singleton_append]
    exact ⟨rfl, rfl⟩

/-- The full effect of `flush_buffer` on a state with a track: the
buffered messages are appended in order, the side's dictionary resets,
and the other side is untouched. -/
theorem flush_buffer_state (s : State) (side : Side) (tr : List TrackEntry)
    (htr : s.current_track = some tr) :
    (flush_buffer s side).current_track =
      some (tr ++ track_writes s.last_message_time (s.noteState side).buffer) ∧
    (flush_buffer s side).last_message_time =
      last_after s.last_message_time (s.noteState side).buffer ∧
    (flush_buffer s side).noteState side = ⟨0, [], 0⟩ ∧
    (flush_buffer s side).noteState side.other = s.noteState side.other := by
  unfold flush_buffer
  obtain ⟨h1, h2⟩ := foldl_write_track (s.noteState side).buffer s tr htr
  obtain ⟨f1, f2, f3, f4, f5, f6⟩ := setNoteState_fields
    ((s.noteState side).buffer.foldl (fun acc p => write_message acc p.1 p.2) s) side
    ⟨0, [], 0⟩
  refine ⟨f4.trans h1, f6.trans h2, noteState_set_same _ side _, ?_⟩
  rw [noteState_set_other]
  obtain ⟨-, cl, chp⟩ := foldl_write_coreEq (s.noteState side).buffer s
  cases side
  · simp only [Side.other, State.noteState] at chp ⊢
    exact chp
  · simp only [Side.other, State.noteState] at cl ⊢
    exact cl

/-- C3 (amended): on any note on/off matching neither reserved note, and
on any non-note event, the detector reports not-handled (so the caller
writes the current event) and flushes each reserved-note buffer whose tap
count is positive into the track in buffered order; a buffer with tap
count 0 — in particular one holding only `note_off` events — is left
pending, not flushed. -/
theorem nonmatching_flush (s : State) (m : Msg) (ts : ℚ) (tr : List TrackEntry)
    (hm : (m.kind = .note_on ∨ m.kind = .note_off) →
      (m.note ≠ LOW_BLACK_NOTE ∧ m.note ≠ HIGH_BLACK_NOTE))
    (htr : s.current_track = some tr) :
    handle_shortcuts s m ts = (flush_pending s, false) ∧
    (s.low_note_state.count = 0 →
      (flush_pending s).low_note_state = s.low_note_state) ∧
    (s.high_note_state.count = 0 →
      (flush_pending s).high_note_state = s.high_note_state) ∧
    (0 < s.low_note_state.count → (flush_pending s).low_note_state = ⟨0, [], 0⟩) ∧
    (0 < s.high_note_state.count → (flush_pending s).high_note_state = ⟨0, [], 0⟩) ∧
    (s.low_note_state.count = 0 → s.high_note_state.count = 0 →
      flush_pending s = s) ∧
    (0 < s.low_note_state.count → s.high_note_state.count = 0 →
      (flush_pending s).current_track =
        some (tr ++ track_writes s.last_message_time s.low_note_state.buffer)) ∧
    (s.low_note_state.count = 0 → 0 < s.high_note_state.count →
      (flush_pending s).current_track =
        some (tr ++ track_writes s.last_message_time s.high_note_state.buffer)) ∧
    (0 < s.low_note_state.count → 0 < s.high_note_state.count →
      (flush_pending s).current_track =
        some ((tr ++ track_writes s.last_message_time s.low_note_state.buffer) ++
          track_writes (last_after s.last_message_time s.low_note_state.buffer)
            s.high_note_state.buffer)) := by
  have hdisp : handle_shortcuts s m ts = (flush_pending s, false) := by
    by_cases hk : m.kind = .note_on ∨ m.kind = .note_off
    · obtain ⟨hl, hh⟩ := hm hk
      unfold handle_shortcuts
      rw [if_pos hk, if_neg hl, if_neg hh]
    · unfold handle_shortcuts
      rw [if_neg hk]
  by_cases cl : 0 < s.low_note_state.count <;> by_cases ch : 0 < s.high_note_state.count
  · -- both pending: low flushed first, then high
    obtain ⟨l1, l2, l3, l4⟩ := flush_buffer_state s .low tr htr
    have chh : 0 < (flush_buffer s .low).high_note_state.count := by
      have := l4
      simp only [Side.other] at this
      rw [show (flush_buffer s .low).high_note_state =
        (flush_buffer s .low).noteState .high from rfl, this]
      exact ch
    have hfp : flush_pending s = flush_buffer (flush_buffer s .low) .high := by
      unfold flush_pending
      rw [if_pos cl, if_pos chh]
    obtain ⟨h1, h2, h3, h4⟩ := flush_buffer_state (flush_buffer s .low) .high _ l1
    refine ⟨hdisp, fun h0 => absurd cl (by omega), fun h0 => absurd ch (by omega),
      fun _ => ?_, fun _ => ?_, fun h0 => absurd cl (by omega),
      fun _ h0 => absurd ch (by omega), fun h0 => absurd cl (by omega), fun _ _ => ?_⟩
    · rw [hfp]
      have := h4
      simp only [Side.other] at this
      rw [show (flush_buffer (flush_buffer s .low) .high).low_note_state =
        (flush_buffer (flush_buffer s .low) .high).noteState .low from rfl, this]
      exact l3
    · rw [hfp]
      exact h3
    · rw [hfp, h1]
      have hb : ((flush_buffer s .low).noteState .high).buffer =
          s.high_note_state.buffer := by
        have := l4
        simp only [Side.other] at this
        rw [this]
        rfl
      rw [hb, l2]
      rfl
  · -- only the low side pending
    obtain ⟨l1, l2, l3, l4⟩ := flush_buffer_state s .low tr htr
    have chh : ¬(0 < (flush_buffer s .low).high_note_state.count) := by
      have := l4
      simp only [Side.other] at this
      rw [show (flush_buffer s .low).high_note_state =
        (flush_buffer s .low).noteState .high from rfl, this]
      exact ch
    have hfp : flush_pending s = flush_buffer s .low := by
      unfold flush_pending
      rw [if_pos cl, if_neg chh]
    refine ⟨hdisp, fun h0 => absurd cl (by omega), fun _ => ?_,
      fun _ => by rw [hfp]; exact l3, fun h0 => absurd h0 (by omega),
      fun h0 => absurd cl (by omega), fun _ _ => by rw [hfp]; exact l1,
      fun h0 => absurd cl (by omega), fun _ h0 => absurd h0 (by omega)⟩
    rw [hfp]
    have := l4
    simp only [Side.other] at this
    exact this
  · -- only the high side pending
    obtain ⟨h1, h2, h3, h4⟩ := flush_buffer_state s .high tr htr
    have hfp : flush_pending s = flush_buffer s .high := by
      unfold flush_pending
      rw [if_neg cl]
      rw [if_pos ch]
    refine ⟨hdisp, fun _ => ?_, fun h0 => absurd ch (by omega),
      fun h0 => absurd h0 (by omega), fun _ => by rw [hfp]; exact h3,
      fun _ h0 => absurd ch (by omega), fun h0 => absurd h0 (by omega),
      fun _ _ => by rw [hfp]; exact h1, fun h0 => absurd h0 (by omega)⟩
    rw [hfp]
    have := h4
    simp only [Side.other] at this
    exact this
  · -- nothing pending: nothing flushed
    have hfp : flush_pending s = s := by
      unfold flush_pending
      rw [if_neg cl]
      rw [if_neg ch]
    exact ⟨hdisp, fun _ => by rw [hfp], fun _ => by rw [hfp],
      fun h0 => absurd h0 (by omega), fun h0 => absurd h0 (by omega),
      fun _ _ => hfp, fun h0 => absurd h0 (by omega),
      fun _ h0 => absurd h0 (by omega), fun h0 => absurd h0 (by omega)⟩

/-- Counterexample to C3 as stated: a buffer holding only a `note_off` on
the LOW note (tap count 0) is not flushed when an unrelated `note_on`
arrives — the pending `note_off` stays in the buffer and the track gains
only the unrelated note. -/
theorem note_off_only_buffer_left_pending :
    (runEvents initState
      [(⟨.note_off, 22, 0⟩, 0), (⟨.note_on, 60, 64⟩, 1/2)]).low_note_state.buffer =
      [(⟨.note_off, 22, 0⟩, 0)] ∧
    (runEvents initState
      [(⟨.note_off, 22, 0⟩, 0), (⟨.note_on, 60, 64⟩, 1/2)]).current_track =
      some [⟨.set_tempo, 0⟩, ⟨.midi ⟨.note_on, 60, 64⟩, 0⟩] := by
  iterate 8
    try (simp only [runEvents, List.foldl, process_midi_message, ensure_recording,
      exit_low_power_mode, start_recording, handle_shortcuts, handle_watched, flush_pending,
      flush_buffer, flush_shortcut_buffers, write_message, stop_recording_skip,
      stop_recording_core, stop_recording_save, State.noteState, State.setNoteState,
      Side.note, Side.sfx, tickDelta, pyInt, initState, SHORTCUT_TIMEOUT, LOW_BLACK_NOTE,
      HIGH_BLACK_NOTE, List.length, List.append_eq, List.cons_append, List.nil_append,
      reduceCtorEq, reduceIte])
    try norm_num
  try rfl

/-- Witness for C3 (amended) on `trigger_sample`: the HIGH buffer
(tap count 2) is flushed, the LOW buffer (a lone `note_off`, tap count 0)
stays pending, and the event is reported not-handled. -/
theorem nonmatching_flush_witness :
    handle_shortcuts trigger_sample ⟨.note_on, 60, 64⟩ 3 =
      (flush_pending trigger_sample, false) ∧
    (flush_pending trigger_sample).low_note_state = trigger_sample.low_note_state ∧
    (flush_pending trigger_sample).high_note_state = ⟨0, [], 0⟩ ∧
    (flush_pending trigger_sample).current_track =
      some ([⟨.set_tempo, 0⟩, ⟨.midi ⟨.note_on, 60, 64⟩, 0⟩] ++
        track_writes trigger_sample.last_message_time
          trigger_sample.high_note_state.buffer) := by
  have h := nonmatching_flush trigger_sample ⟨.note_on, 60, 64⟩ 3
    [⟨.set_tempo, 0⟩, ⟨.midi ⟨.note_on, 60, 64⟩, 0⟩]
    (fun _ => by norm_num [LOW_BLACK_NOTE, HIGH_BLACK_NOTE]) rfl
  exact ⟨h.1, h.2.1 rfl, h.2.2.2.2.1 (by norm_num [trigger_sample]),
    h.2.2.2.2.2.2.2.1 rfl (by norm_num [trigger_sample])⟩

/-! ### Interrupted taps are flushed as ordinary notes (claim C4) -/

theorem flush_buffer_empty (s : State) (side : Side)
    (hb : (s.noteState side).buffer = []) :
    flush_buffer s side = s.setNoteState side ⟨0, [], 0⟩ := by
  unfold flush_buffer
  rw [hb]
  rfl

theorem stop_recording_save_saves (suffix : String) (s : State) (tr : List TrackEntry)
    (htr : s.current_track = some tr) (hlen : 1 < tr.length) :
    (stop_recording_save suffix s).saved_files = s.saved_files ++ [(suffix, tr)] := by
  unfold stop_recording_save
  rw [htr]
  dsimp only
  rw [if_pos hlen]

/-- `stop_recording()` (timeout/shutdown path) on a recording state with
an empty queue and empty shortcut buffers saves the current track when it
holds more than the tempo seed. -/
theorem stop_recording_full_saves (suffix : String) (s : State) (tr : List TrackEntry)
    (hrec : s.recording = true) (hq : s.message_queue = [])
    (hlb : s.low_note_state.buffer = []) (hhb : s.high_note_state.buffer = [])
    (htr : s.current_track = some tr) (hlen : 1 < tr.length) :
    (stop_recording_full suffix s).saved_files = s.saved_files ++ [(suffix, tr)] ∧
    (stop_recording_full suffix s).recording = false ∧
    (stop_recording_full suffix s).current_track = none := by
  unfold stop_recording_full
  rw [if_pos hrec, drain_queue_nil _ (by simpa using hq)]
  unfold stop_recording_core
  rw [if_neg (by exact Bool.false_ne_true)]
  unfold flush_shortcut_buffers
  rw [flush_buffer_empty _ .low (by simpa [State.noteState] using hlb),
    flush_buffer_empty _ .high (by simp [State.noteState, State.setNoteState, hhb])]
  have htr2 : ((({ s with recording := false } : State).setNoteState .low
      ⟨0, [], 0⟩).setNoteState .high ⟨0, [], 0⟩).current_track = some tr := by
    simpa [State.setNoteState] using htr
  exact ⟨stop_recording_save_saves suffix _ tr htr2 hlen,
    (stop_recording_save_fields suffix _).1.trans (by simp [State.setNoteState]),
    (stop_recording_save_fields suffix _).2.2.2⟩

/-- After a pending two-tap gesture, a `note_on` on an unrelated note
flushes the two buffered taps into the track in order and then writes the
unrelated note after them. -/
theorem unrelated_note_after_taps (side : Side) (s0 : State) (tr0 : List TrackEntry)
    (s2 : State) (m : Msg) (t3 lt : ℚ) (buf : List (Msg × ℚ))
    (hinv : GestureInv side s0 2 lt buf s2)
    (htr : s0.current_track = some tr0)
    (hother : s0.noteState side.other = ⟨0, [], 0⟩)
    (hm : m.kind = .note_on)
    (hn : m.note ≠ LOW_BLACK_NOTE ∧ m.note ≠ HIGH_BLACK_NOTE) :
    (process_midi_message s2 m t3).recording = true ∧
    (process_midi_message s2 m t3).message_queue = s0.message_queue ∧
    (process_midi_message s2 m t3).low_note_state.buffer = [] ∧
    (process_midi_message s2 m t3).high_note_state.buffer = [] ∧
    (process_midi_message s2 m t3).saved_files = s0.saved_files ∧
    (process_midi_message s2 m t3).current_track =
      some ((tr0 ++ track_writes s0.last_message_time buf) ++
        [⟨.midi m, tickDelta (last_after s0.last_message_time buf) t3⟩]) := by
  obtain ⟨g1, g2, g3, g4, g5, g6, g7, g8, g9⟩ := hinv
  rw [pm_eq s2 m t3 (Or.inl hm) g1]
  set S : State := { s2 with last_activity := some t3, in_low_power := false } with hS
  have htr' : S.current_track = some tr0 := by
    rw [show S.current_track = s2.current_track from rfl, g6, htr]
  have hcnt' : (S.noteState side).count = 2 := by
    rw [hS, noteState_activity]
    exact g2
  have hbuf' : (S.noteState side).buffer = buf := by
    rw [hS, noteState_activity]
    exact g4
  have hoth' : S.noteState side.other = ⟨0, [], 0⟩ := by
    rw [hS, noteState_activity, g5, hother]
  have hlm' : S.last_message_time = s0.last_message_time := by
    rw [show S.last_message_time = s2.last_message_time from rfl, g8]
  have hd := (nonmatching_flush S m t3 tr0 (fun _ => hn) htr').1
  rw [hd, if_neg (show ¬(((flush_pending S, false) : State × Bool).2 = true) from
    Bool.false_ne_true)]
  obtain ⟨fb1, fb2, fb3, fb4⟩ := flush_buffer_state S side tr0 htr'
  have hfp : flush_pending S = flush_buffer S side := by
    cases side
    · have hc : 0 < S.low_note_state.count := by
        have h2 := hcnt'
        simp only [State.noteState] at h2
        exact lt_of_lt_of_eq (by norm_num) h2.symm
      have hh : (flush_buffer S .low).high_note_state = ⟨0, [], 0⟩ := by
        have h4 := fb4
        simp only [Side.other] at h4
        have ho := hoth'
        simp only [Side.other] at ho
        calc (flush_buffer S .low).high_note_state
            = (flush_buffer S .low).noteState .high := rfl
          _ = S.noteState .high := h4
          _ = ⟨0, [], 0⟩ := ho
      unfold flush_pending
      rw [if_pos hc, if_neg (show ¬(0 < (flush_buffer S .low).high_note_state.count) by
        rw [hh]; simp)]
    · have hc : 0 < S.high_note_state.count := by
        have h2 := hcnt'
        simp only [State.noteState] at h2
        exact lt_of_lt_of_eq (by norm_num) h2.symm
      have hl : S.low_note_state = ⟨0, [], 0⟩ := by
        have ho := hoth'
        simp only [Side.other] at ho
        exact ho
      unfold flush_pending
      rw [if_neg (show ¬(0 < S.low_note_state.count) by rw [hl]; simp), if_pos hc]
  rw [hfp]
  unfold write_message
  rw [fb1]
  dsimp only
  obtain ⟨c1, c2, c3, c4, c5, c6, c7⟩ := flush_buffer_coreEq S side
  have hq' : S.message_queue = s0.message_queue := by
    rw [show S.message_queue = s2.message_queue from rfl, g9]
  have hsv' : S.saved_files = s0.saved_files := by
    rw [show S.saved_files = s2.saved_files from rfl, g7]
  refine ⟨c1.trans (show S.recording = true from g1), c5.trans hq', ?_, ?_,
    c4.trans hsv', ?_⟩
  · cases side
    · calc (flush_buffer S .low).low_note_state.buffer
          = ((flush_buffer S .low).noteState .low).buffer := rfl
        _ = [] := by rw [fb3]
    · have h4 := fb4
      simp only [Side.other] at h4
      have ho := hoth'
      simp only [Side.other] at ho
      calc (flush_buffer S .high).low_note_state.buffer
          = ((flush_buffer S .high).noteState .low).buffer := rfl
        _ = (S.noteState .low).buffer := by rw [h4]
        _ = [] := by rw [ho]
  · cases side
    · have h4 := fb4
      simp only [Side.other] at h4
      have ho := hoth'
      simp only [Side.other] at ho
      calc (flush_buffer S .low).high_note_state.buffer
          = ((flush_buffer S .low).noteState .high).buffer := rfl
        _ = (S.noteState .high).buffer := by rw [h4]
        _ = [] := by rw [ho]
    · calc (flush_buffer S .high).high_note_state.buffer
          = ((flush_buffer S .high).noteState .high).buffer := rfl
        _ = [] := by rw [fb3]
  · rw [fb2, hbuf', hlm']

/-- C4: in a session with a fresh reserved-note state, two in-time taps on
a reserved note followed (after any pause) by a `note_on` on an unrelated
note leave both taps in the saved output as ordinary events, in their
original order, before the unrelated note. -/
theorem interrupted_taps_flushed (side : Side) (s0 : State) (tr0 : List TrackEntry)
    (v1 v2 vm n : ℕ) (t1 t2 t3 : ℚ)
    (hrec : s0.recording = true) (htr : s0.current_track = some tr0)
    (hside : s0.noteState side = ⟨0, [], 0⟩)
    (hother : s0.noteState side.other = ⟨0, [], 0⟩)
    (hq : s0.message_queue = [])
    (h12 : t2 - t1 ≤ SHORTCUT_TIMEOUT) (hpause : SHORTCUT_TIMEOUT < t3 - t2)
    (hn : n ≠ LOW_BLACK_NOTE ∧ n ≠ HIGH_BLACK_NOTE) :
    ∀ sF, sF = stop_recording_full ""
        (runEvents s0 [(⟨.note_on, side.note, v1⟩, t1), (⟨.note_on, side.note, v2⟩, t2),
          (⟨.note_on, n, vm⟩, t3)]) →
      sF.saved_files = s0.saved_files ++
        [("", (tr0 ++ [⟨.midi ⟨.note_on, side.note, v1⟩, tickDelta s0.last_message_time t1⟩,
          ⟨.midi ⟨.note_on, side.note, v2⟩, tickDelta (some t1) t2⟩]) ++
          [⟨.midi ⟨.note_on, n, vm⟩, tickDelta (some t2) t3⟩])] ∧
      sF.recording = false ∧
      sF.current_track = none := by
  intro sF hsF
  have i0 : GestureInv side s0 0 0 [] s0 := by
    refine ⟨hrec, ?_, ?_, ?_, rfl, rfl, rfl, rfl, rfl⟩ <;> rw [hside]
  have i1 := gesture_on_step side s0 0 0 [] s0 ⟨.note_on, side.note, v1⟩ t1 rfl rfl i0
    (by omega) (Or.inl rfl)
  have i2 := gesture_on_step side s0 1 t1 _ _ ⟨.note_on, side.note, v2⟩ t2 rfl rfl i1
    (by omega) (Or.inr (not_lt.mpr h12))
  have h3 := unrelated_note_after_taps side s0 tr0 _ ⟨.note_on, n, vm⟩ t3 t2 _ i2 htr
    hother rfl hn
  obtain ⟨w1, w2, w3, w4, w5, w6⟩ := h3
  simp only [List.nil_append, track_writes, last_after] at w6
  have hsave := stop_recording_full_saves "" _ _ w1 (w2.trans hq) w3 w4 w6
    (by simp)
  rw [hsF, show runEvents s0 [(⟨.note_on, side.note, v1⟩, t1),
    (⟨.note_on, side.note, v2⟩, t2), (⟨.note_on, n, vm⟩, t3)] =
    process_midi_message (process_midi_message (process_midi_message s0
      ⟨.note_on, side.note, v1⟩ t1) ⟨.note_on, side.note, v2⟩ t2)
      ⟨.note_on, n, vm⟩ t3 from rfl]
  exact ⟨hsave.1.trans (by rw [w5]), hsave.2.1, hsave.2.2⟩

/-- Witness for C4: LOW-note double tap at times 1 and 3/2, then an
unrelated note 60 at time 3, in a session started by note 60 at time 0. -/
theorem interrupted_taps_flushed_witness :
    (stop_recording_full ""
        (runEvents (runEvents initState [(⟨.note_on, 60, 64⟩, 0)])
          [(⟨.note_on, Side.low.note, 7⟩, 1), (⟨.note_on, Side.low.note, 8⟩, 3/2),
            (⟨.note_on, 60, 9⟩, 3)])).saved_files =
      (runEvents initState [(⟨.note_on, 60, 64⟩, 0)]).saved_files ++
        [("", ([⟨.set_tempo, 0⟩, ⟨.midi ⟨.note_on, 60, 64⟩, tickDelta none 0⟩] ++
          [⟨.midi ⟨.note_on, Side.low.note, 7⟩,
            tickDelta (runEvents initState [(⟨.note_on, 60, 64⟩, 0)]).last_message_time 1⟩,
          ⟨.midi ⟨.note_on, Side.low.note, 8⟩, tickDelta (some 1) (3/2)⟩]) ++
          [⟨.midi ⟨.note_on, 60, 9⟩, tickDelta (some (3/2)) 3⟩])] ∧
    (stop_recording_full ""
        (runEvents (runEvents initState [(⟨.note_on, 60, 64⟩, 0)])
          [(⟨.note_on, Side.low.note, 7⟩, 1), (⟨.note_on, Side.low.note, 8⟩, 3/2),
            (⟨.note_on, 60, 9⟩, 3)])).recording = false ∧
    (stop_recording_full ""
        (runEvents (runEvents initState [(⟨.note_on, 60, 64⟩, 0)])
          [(⟨.note_on, Side.low.note, 7⟩, 1), (⟨.note_on, Side.low.note, 8⟩, 3/2),
            (⟨.note_on, 60, 9⟩, 3)])).current_track = none :=
  interrupted_taps_flushed .low (runEvents initState [(⟨.note_on, 60, 64⟩, 0)])
    [⟨.set_tempo, 0⟩, ⟨.midi ⟨.note_on, 60, 64⟩, tickDelta none 0⟩] 7 8 9 60 1 (3/2) 3
    rfl rfl rfl rfl rfl (by norm_num [SHORTCUT_TIMEOUT]) (by norm_num [SHORTCUT_TIMEOUT])
    (by norm_num [LOW_BLACK_NOTE, HIGH_BLACK_NOTE]) _ rfl

/-! ### Track delta invariant (claim C5) -/

theorem write_message_trackInv (s : State) (m : Msg) (ts : ℚ) (h : trackInv s) :
    trackInv (write_message s m ts) := by
  rcases htr : s.current_track with _ | tr
  · have he : write_message s m ts = s := by
      unfold write_message
      rw [htr]
    rw [he]
    exact h
  · have he : write_message s m ts = { s with current_track := some (tr ++ [⟨.midi m, tickDelta s.last_message_time ts⟩]), last_message_time := some ts } := by
      unfold write_message
      rw [htr]
    rw [he]
    unfold trackInv at h ⊢
    rw [htr] at h
    obtain ⟨⟨hne, hg, hlm⟩, hs⟩ := h
    have hlen : 1 ≤ tr.length := List.length_pos.mpr hne
    refine ⟨⟨by simp, ⟨?_, ?_⟩, ?_⟩, hs⟩
    · intro e he2
      rcases List.mem_append.mp he2 with h1 | h1
      · exact hg.1 e h1
      · rw [List.mem_singleton.mp h1]
        exact tickDelta_nonneg _ _
    · intro e h1
      rcases Nat.lt_or_ge 1 tr.length with hgt | hle
      · rw [List.getElem?_append, if_pos hgt] at h1
        exact hg.2 e h1
      · have hl1 : tr.length = 1 := le_antisymm hle hlen
        rw [List.getElem?_append, if_neg (by omega), hl1] at h1
        simp only [Nat.sub_self, List.getElem?_cons_zero] at h1
        have hnone := hlm (le_of_eq hl1)
        rw [hnone, tickDelta_none] at h1
        obtain rfl := (Option.some_inj.mp h1).symm
        rfl
    · intro hcontra
      simp only [List.length_append, List.length_singleton] at hcontra
      omega

theorem foldl_write_trackInv (buf : List (Msg × ℚ)) :
    ∀ s, trackInv s →
      trackInv (buf.foldl (fun acc p => write_message acc p.1 p.2) s) := by
  induction buf with
  | nil => intro s h; exact h
  | cons p rest ih =>
    intro s h
    rw [List.foldl_cons]
    exact ih _ (write_message_trackInv s p.1 p.2 h)

theorem setNoteState_trackInv (s : State) (side : Side) (ns : NoteState)
    (h : trackInv s) : trackInv (s.setNoteState side ns) := by
  cases side <;> exact h

theorem flush_buffer_trackInv (s : State) (side : Side) (h : trackInv s) :
    trackInv (flush_buffer s side) := by
  unfold flush_buffer
  exact setNoteState_trackInv _ side _ (foldl_write_trackInv _ s h)

theorem flush_shortcut_buffers_trackInv (s : State) (h : trackInv s) :
    trackInv (flush_shortcut_buffers s) := by
  unfold flush_shortcut_buffers
  exact flush_buffer_trackInv _ .high (flush_buffer_trackInv s .low h)

theorem flush_pending_trackInv (s : State) (h : trackInv s) :
    trackInv (flush_pending s) := by
  unfold flush_pending
  dsimp only
  split_ifs <;>
    first
      | exact flush_buffer_trackInv _ .high (flush_buffer_trackInv s .low h)
      | exact flush_buffer_trackInv _ .high h
      | exact flush_buffer_trackInv s .low h
      | exact h

theorem start_recording_trackInv (s : State) (now : ℚ) (h : trackInv s) :
    trackInv (start_recording s now) := by
  unfold start_recording
  split_ifs
  · exact h
  · exact ⟨⟨by simp, ⟨by intro e he; simp at he; rw [he], by intro e h1; simp at h1⟩,
      fun _ => rfl⟩, h.2⟩

theorem stop_recording_save_trackInv (suffix : String) (s : State) (h : trackInv s) :
    trackInv (stop_recording_save suffix s) := by
  unfold stop_recording_save
  obtain ⟨ht, hs⟩ := h
  rcases htr : s.current_track with _ | tr
  · exact ⟨trivial, hs⟩
  · rw [htr] at ht
    dsimp only
    split_ifs
    · refine ⟨trivial, ?_⟩
      intro p hp
      rcases List.mem_append.mp hp with h1 | h1
      · exact hs p h1
      · rw [List.mem_singleton.mp h1]
        exact ht.2.1
    · exact ⟨trivial, hs⟩

theorem stop_recording_core_trackInv (suffix : String) (b : Bool) (s : State)
    (h : trackInv s) : trackInv (stop_recording_core suffix b s) := by
  unfold stop_recording_core
  dsimp only
  split_ifs
  · exact stop_recording_save_trackInv suffix _ h
  · exact stop_recording_save_trackInv suffix _ (flush_shortcut_buffers_trackInv s h)

theorem stop_recording_skip_trackInv (suffix : String) (s : State) (h : trackInv s) :
    trackInv (stop_recording_skip suffix s) := by
  unfold stop_recording_skip
  split_ifs
  · exact stop_recording_core_trackInv suffix true _ h
  · exact h

theorem handle_watched_trackInv (side : Side) (s : State) (m : Msg) (ts : ℚ)
    (h : trackInv s) : trackInv (handle_watched side s m ts).1 := by
  unfold handle_watched
  dsimp only
  split_ifs <;>
    first
      | exact stop_recording_skip_trackInv _ _
          (setNoteState_trackInv _ side _ (setNoteState_trackInv _ side _
            (flush_buffer_trackInv s side h)))
      | exact stop_recording_skip_trackInv _ _
          (setNoteState_trackInv _ side _ (setNoteState_trackInv _ side _ h))
      | exact setNoteState_trackInv _ side _ (setNoteState_trackInv _ side _
          (flush_buffer_trackInv s side h))
      | exact setNoteState_trackInv _ side _ (setNoteState_trackInv _ side _ h)
      | exact setNoteState_trackInv _ side _ (flush_buffer_trackInv s side h)
      | exact setNoteState_trackInv _ side _ h

theorem handle_shortcuts_trackInv (s : State) (m : Msg) (ts : ℚ) (h : trackInv s) :
    trackInv (handle_shortcuts s m ts).1 := by
  unfold handle_shortcuts
  split_ifs <;>
    first
      | exact handle_watched_trackInv .low s m ts h
      | exact handle_watched_trackInv .high s m ts h
      | exact flush_pending_trackInv s h

theorem process_midi_message_trackInv (s : State) (m : Msg) (ts : ℚ)
    (h : trackInv s) : trackInv (process_midi_message s m ts) := by
  unfold process_midi_message
  split_ifs
  · exact h
  · dsimp only
    have h1 : trackInv ({ s with last_activity := some ts } : State) := h
    have h2 : trackInv (ensure_recording { s with last_activity := some ts } ts) := by
      unfold ensure_recording
      split_ifs
      · exact h1
      · exact start_recording_trackInv _ ts h1
    have h3 : trackInv (exit_low_power_mode
        (ensure_recording { s with last_activity := some ts } ts)) := by
      unfold exit_low_power_mode
      split_ifs
      · exact h2
      · exact h2
    split_ifs
    · exact handle_shortcuts_trackInv _ m ts h3
    · exact write_message_trackInv _ m ts (handle_shortcuts_trackInv _ m ts h3)

/-- C5: over every run of the engine from its initial state, every entry
of the live session track carries a non-negative tick delta and the entry
at index 1 — the first event written after the seed — has delta 0; the
same holds of every saved track. -/
theorem track_delta_invariant (evs : List (Msg × ℚ)) :
    (∀ tr, (runEvents initState evs).current_track = some tr → goodTrack tr) ∧
    (∀ p ∈ (runEvents initState evs).saved_files, goodTrack p.2) := by
  have hrun : ∀ (l : List (Msg × ℚ)) (s : State), trackInv s → trackInv (runEvents s l) := by
    intro l
    induction l with
    | nil => intro s h; exact h
    | cons e rest ih =>
      intro s h
      rw [runEvents, List.foldl_cons]
      exact ih _ (process_midi_message_trackInv s e.1 e.2 h)
  obtain ⟨ht, hs⟩ := hrun evs initState
    ⟨trivial, by intro p hp; simp [initState] at hp⟩
  refine ⟨?_, hs⟩
  intro tr htr
  rw [htr] at ht
  exact ht.2.1

/-- Witness for C5 on a two-event run. -/
theorem track_delta_invariant_witness :
    goodTrack [⟨.set_tempo, 0⟩, ⟨.midi ⟨.note_on, 60, 64⟩, tickDelta none 0⟩,
      ⟨.midi ⟨.note_on, 62, 64⟩, tickDelta (some 0) 1⟩] :=
  (track_delta_invariant [(⟨.note_on, 60, 64⟩, 0), (⟨.note_on, 62, 64⟩, 1)]).1
    [⟨.set_tempo, 0⟩, ⟨.midi ⟨.note_on, 60, 64⟩, tickDelta none 0⟩,
      ⟨.midi ⟨.note_on, 62, 64⟩, tickDelta (some 0) 1⟩] rfl

end MidiRecorder
